import Mathlib

/-!
# Verification of the Vitrea gateway protocol client

Shallow embedding of the core of `custom_components/vitrea/vitrea_integration`:
the binary parameter-protocol command generators and response validators, the
`VBoxConnection` receive/send/reconnect logic, the ASCII error-response parser,
the catalog database model, and a small-step concurrency model of the
`VitreaDatabaseReader` single-flight request/response machinery.

Bytes are modelled as `Nat` values (with `% 256` where the code wraps), byte
strings as `List Nat`, Python exceptions as `Option`/`Except`, and the
cooperative-asyncio reader as an explicit labelled transition system whose
atomic steps correspond to the code segments between genuine suspension points.
-/

namespace Vitrea

/-! ## Catalog database model (`models/database.py`)

Python stores each entity category in a `set` of (identity-distinct) model
objects; we model each category as a `List` of records, whose length plays the
role of `len(set)`.  Entity names are kept as lists of Unicode code points
(the output of the UTF-16 name decoding modelled below). -/

structure FloorModel where
  id : Nat
  name : List Nat
  deriving DecidableEq, Repr

structure RoomModel where
  id : Nat
  name : List Nat
  floor_id : Nat
  deriving DecidableEq, Repr

structure KeypadModel where
  id : Nat
  deriving DecidableEq, Repr

/-- `KeyTypes` enumeration (`utils/enums.py`): values 0..24. -/
def KeyTypes.values : List Nat :=
  [0, 1, 2, 3, 4, 5, 6, 7, 8, 9, 10, 11, 12, 13, 14, 15, 16, 17, 18, 19, 20,
   21, 22, 23, 24]

structure KeyModel where
  id : Nat
  name : List Nat
  type : Nat
  keypad_id : Nat
  room_id : Nat
  deriving DecidableEq, Repr

structure AirConditionerModel where
  id : Nat
  name : List Nat
  type : Nat
  room_id : Nat
  deriving DecidableEq, Repr

structure ScenarioModel where
  id : Nat
  name : List Nat
  room_id : Nat
  deriving DecidableEq, Repr

/-- A discovered entity handed to `VitreaDatabaseModel.add_object`
(`BaseVitreaModel` subclasses in `models/database.py`). -/
inductive DbEntity where
  | floor (f : FloorModel)
  | room (r : RoomModel)
  | keypad (k : KeypadModel)
  | key (k : KeyModel)
  | ac (a : AirConditionerModel)
  | scenario (s : ScenarioModel)
  deriving DecidableEq, Repr

/-- `VitreaDatabaseModel.__init__`: all category containers empty, every
expected count initialised to the sentinel `999`, no cached serialization. -/
structure VitreaDatabaseModel where
  floors : List FloorModel
  rooms : List RoomModel
  keypads : List KeypadModel
  keys : List KeyModel
  air_conditioners : List AirConditionerModel
  scenarios : List ScenarioModel
  no_of_floors : Nat
  no_of_rooms : Nat
  no_of_keys : Nat
  no_of_acs : Nat
  no_of_scenarios : Nat
  relationships_resolved : Bool
  serialized_data_cached : Bool
  deriving DecidableEq, Repr

namespace VitreaDatabaseModel

/-- The state built by `VitreaDatabaseModel.__init__`. -/
def init : VitreaDatabaseModel :=
  { floors := [], rooms := [], keypads := [], keys := [],
    air_conditioners := [], scenarios := [],
    no_of_floors := 999, no_of_rooms := 999, no_of_keys := 999,
    no_of_acs := 999, no_of_scenarios := 999,
    relationships_resolved := false, serialized_data_cached := false }

def is_floors_loaded (db : VitreaDatabaseModel) : Bool :=
  db.floors.length == db.no_of_floors

def is_rooms_loaded (db : VitreaDatabaseModel) : Bool :=
  db.rooms.length == db.no_of_rooms

def is_keys_loaded (db : VitreaDatabaseModel) : Bool :=
  db.keys.length == db.no_of_keys

def is_acs_loaded (db : VitreaDatabaseModel) : Bool :=
  db.air_conditioners.length == db.no_of_acs

def is_scenarios_loaded (db : VitreaDatabaseModel) : Bool :=
  db.scenarios.length == db.no_of_scenarios

/-- `VitreaDatabaseModel.is_loaded`: all five category checks
(keypads are not checked by the code). -/
def is_loaded (db : VitreaDatabaseModel) : Bool :=
  db.is_floors_loaded && db.is_rooms_loaded && db.is_keys_loaded &&
    db.is_acs_loaded && db.is_scenarios_loaded

/-- `VitreaDatabaseModel.add_object`: dispatch on the entity kind to the
corresponding `add_*` (a Python `set.add`, modelled as list append). -/
def add_object (db : VitreaDatabaseModel) (obj : DbEntity) : VitreaDatabaseModel :=
  match obj with
  | .floor f => { db with floors := db.floors ++ [f] }
  | .room r => { db with rooms := db.rooms ++ [r] }
  | .keypad k => { db with keypads := db.keypads ++ [k] }
  | .key k => { db with keys := db.keys ++ [k] }
  | .ac a => { db with air_conditioners := db.air_conditioners ++ [a] }
  | .scenario s => { db with scenarios := db.scenarios ++ [s] }

end VitreaDatabaseModel

/-! ### Serialization of a loaded database (`VitreaDatabaseModel.serialize`)

The Python code first resolves cross-references by mutation
(`_resolve_relationships`) and then emits nested dictionaries; we express the
same output with lookups over the immutable lists.  A `room.serialize()` whose
floor reference was never resolved dereferences `None` in Python
(AttributeError); this is modelled by `Except.error`. -/

/-- Nested Python value produced by the `serialize` methods. -/
inductive PyVal where
  | null
  | nat (n : Nat)
  | str (codepoints : List Nat)
  | list (items : List PyVal)
  | field (name : String) (value : PyVal)
  | dict (fields : List PyVal)
  deriving Repr

namespace VitreaDatabaseModel

/-- Rooms attached to a floor by `_resolve_relationships` (the rooms whose
`floor_id` matches and whose lookup succeeded). -/
def floorRooms (db : VitreaDatabaseModel) (f : FloorModel) : List RoomModel :=
  db.rooms.filter (fun r => r.floor_id == f.id)

/-- `FloorModel.serialize(incl_relations=False)`. -/
def serializeFloorFlat (db : VitreaDatabaseModel) (f : FloorModel) : PyVal :=
  .dict [.field "id" (.nat f.id), .field "name" (.str f.name),
         .field "room_ids" (.list ((db.floorRooms f).map (fun r => .nat r.id)))]

/-- `RoomModel.serialize(incl_relations=False)`: dereferences `self.floor`,
which is `None` when no floor with `floor_id` exists (AttributeError). -/
def serializeRoomFlat (db : VitreaDatabaseModel) (r : RoomModel) :
    Except String PyVal :=
  match db.floors.find? (fun f => f.id == r.floor_id) with
  | none => .error "AttributeError"
  | some f =>
      .ok (.dict [.field "id" (.nat r.id), .field "name" (.str r.name),
        .field "floor" (db.serializeFloorFlat f),
        .field "key_ids" (.list ((db.keys.filter
          (fun k => k.room_id == r.id)).map (fun k => .nat k.id))),
        .field "ac_ids" (.list ((db.air_conditioners.filter
          (fun a => a.room_id == r.id)).map (fun a => .nat a.id))),
        .field "scenario_ids" (.list ((db.scenarios.filter
          (fun s => s.room_id == r.id)).map (fun s => .nat s.id)))])

/-- `FloorModel.serialize(incl_relations=True)`. -/
def serializeFloorFull (db : VitreaDatabaseModel) (f : FloorModel) :
    Except String PyVal := do
  let rooms ← (db.floorRooms f).mapM (db.serializeRoomFlat)
  .ok (.dict [.field "id" (.nat f.id), .field "name" (.str f.name),
    .field "rooms" (.list rooms)])

/-- `KeyModel.serialize(incl_relations=True)`: emits the resolved room. -/
def serializeKeyFull (db : VitreaDatabaseModel) (k : KeyModel) :
    Except String PyVal := do
  match db.rooms.find? (fun r => r.id == k.room_id) with
  | none => .error "AttributeError"
  | some r => do
      let room ← db.serializeRoomFlat r
      .ok (.dict [.field "id" (.nat k.id), .field "name" (.str k.name),
        .field "type" (.nat k.type), .field "keypad_id" (.nat k.keypad_id),
        .field "room" room])

/-- `KeypadModel.serialize(incl_relations=True)`. -/
def serializeKeypadFull (db : VitreaDatabaseModel) (kp : KeypadModel) :
    Except String PyVal := do
  let keys ← (db.keys.filter (fun k => k.keypad_id == kp.id)).mapM
    (db.serializeKeyFull)
  .ok (.dict [.field "id" (.nat kp.id), .field "keys" (.list keys)])

/-- `AirConditionerModel.serialize(incl_relations=True)`. -/
def serializeAcFull (db : VitreaDatabaseModel) (a : AirConditionerModel) :
    Except String PyVal := do
  match db.rooms.find? (fun r => r.id == a.room_id) with
  | none => .error "AttributeError"
  | some r => do
      let room ← db.serializeRoomFlat r
      .ok (.dict [.field "id" (.nat a.id), .field "name" (.str a.name),
        .field "type" (.nat a.type), .field "room" room])

/-- `ScenarioModel.serialize(incl_relations=True)`: a scenario with no
resolved room serialises `room: None`. -/
def serializeScenarioFull (db : VitreaDatabaseModel) (s : ScenarioModel) :
    Except String PyVal := do
  match db.rooms.find? (fun r => r.id == s.room_id) with
  | none => .ok (.dict [.field "id" (.nat s.id), .field "name" (.str s.name),
      .field "room" .null])
  | some r => do
      let room ← db.serializeRoomFlat r
      .ok (.dict [.field "id" (.nat s.id), .field "name" (.str s.name),
        .field "room" room])

/-- `VitreaDatabaseModel.serialize(force_refresh=False)` on a database with no
cached `serialized_data`: raises `ValueError("Database is not fully loaded")`
unless `is_loaded()`, otherwise resolves relationships and emits the nested
catalog. -/
def serialize (db : VitreaDatabaseModel) : Except String PyVal :=
  if ¬ db.is_loaded then .error "Database is not fully loaded"
  else do
    let floors ← db.floors.mapM (db.serializeFloorFull)
    let rooms ← db.rooms.mapM (db.serializeRoomFlat)
    let keypads ← db.keypads.mapM (db.serializeKeypadFull)
    let keys ← db.keys.mapM (db.serializeKeyFull)
    let acs ← db.air_conditioners.mapM (db.serializeAcFull)
    let scenarios ← db.scenarios.mapM (db.serializeScenarioFull)
    .ok (.dict [.field "floors" (.list floors), .field "rooms" (.list rooms),
      .field "keypads" (.list keypads), .field "keys" (.list keys),
      .field "air_conditioners" (.list acs),
      .field "scenarios" (.list scenarios)])

end VitreaDatabaseModel

/-! ## Binary parameter-protocol command generators
(`parameter_api/v2/commands/base.py`, `parameter_api/v2/commands/floors.py`)

The generators build the outbound frame as a Python string of characters with
code points below 256 and finally encode it with `raw_unicode_escape`, which
maps each such character to the byte equal to its code point.  Frames are
therefore modelled directly as lists of byte values (`ord` of each char). -/

namespace BaseParameterCommandGenerator

/-- `HEADER = "VTH>"` as byte values. -/
def HEADER : List Nat := [86, 84, 72, 62]

/-- `self.command_start = f"[HEADER][chr(command_number)]"`. -/
def command_start (commandNumber : Nat) : List Nat := HEADER ++ [commandNumber]

/-- `get_length`: `post_command_length = len(command_data) + data_length + 1`,
packed with `struct.pack(">B", ...)` (raises for values ≥ 256), rendered as a
two-digit hex string, and each hex digit `ch` turned into `chr(int(ch))` —
`int(ch)` raises `ValueError` on the digits `a`-`f`, so the result is two
bytes holding the two hex nibbles, defined only when both nibbles are ≤ 9.
`none` models the raised exception. -/
def get_length (commandDataLen dataLength : Nat) : Option (List Nat) :=
  let post := commandDataLen + dataLength + 1
  if post < 256 ∧ post / 16 ≤ 9 ∧ post % 16 ≤ 9 then
    some [post / 16, post % 16]
  else none

/-- `add_checksum`: appends `chr(sum(ord(c) for c in command_str) % 256)`. -/
def add_checksum (commandStr : List Nat) : List Nat :=
  commandStr ++ [commandStr.sum % 256]

/-- Helper of `_int_to_hex_word`: consume the hex-digit string two digits at a
time, `int(pair, 16)` each pair (a trailing lone digit forms its own pair). -/
def pairUp : List Nat → List Nat
  | [] => []
  | [d] => [d]
  | d1 :: d2 :: rest => (d1 * 16 + d2) :: pairUp rest

/-- `_int_to_hex_word`: `format(int_num, "04x")` (hex digits, left-padded with
zeros to at least four digits) consumed pairwise into characters. -/
def int_to_hex_word (n : Nat) : List Nat :=
  pairUp (List.replicate (4 - (Nat.digits 16 n).length) 0 ++
    (Nat.digits 16 n).reverse)

end BaseParameterCommandGenerator

namespace GetFloorNumbers

/-- `CommandNumber.GetFloorNumbers = 1`. -/
def COMMAND_NUMBER : Nat := 1

/-- `GetFloorNumbers.serialize`: `command_start + get_length() + checksum`
(`command_data = ""`). -/
def serialize : Option (List Nat) :=
  (BaseParameterCommandGenerator.get_length 0 0).map (fun lenBytes =>
    BaseParameterCommandGenerator.add_checksum
      (BaseParameterCommandGenerator.command_start COMMAND_NUMBER ++ lenBytes))

end GetFloorNumbers

namespace GetFloorParams

/-- `CommandNumber.GetFloorParams = 2`. -/
def COMMAND_NUMBER : Nat := 2

/-- `GetFloorParams.serialize`:
`command_start + get_length(data_length=2) + _int_to_hex_word(floor_id) +
checksum`. -/
def serialize (floor_id : Nat) : Option (List Nat) :=
  (BaseParameterCommandGenerator.get_length 0 2).map (fun lenBytes =>
    BaseParameterCommandGenerator.add_checksum
      (BaseParameterCommandGenerator.command_start COMMAND_NUMBER ++ lenBytes ++
        BaseParameterCommandGenerator.int_to_hex_word floor_id))

end GetFloorParams

namespace BaseParameterResponseParser

/-- `validate_checksum` (`parameter_api/v3/responses/base.py`): compares the
sum of all bytes except the last, mod 256, with the last byte.  `none` models
the `IndexError` on an empty list (`response_bytes[-1]`). -/
def validate_checksum (responseBytes : List Nat) : Option Bool :=
  if responseBytes.isEmpty then none
  else some (responseBytes.dropLast.sum % 256 == responseBytes.getLastD 0)

end BaseParameterResponseParser

/-! ## ASCII error-response parser
(`control_api/responses/parsers/error_response_parser.py`)

ASCII frames are modelled as lists of characters.  `parse` raises one of the
typed Vitrea exceptions; the raised exception is the parser's result, so it is
modelled as the return value.  `none` models the `ValueError` Python raises
when `response.split(":")` does not yield exactly three fields. -/

/-- Python `str.split(":")`. -/
def splitOnColon : List Char → List (List Char)
  | [] => [[]]
  | c :: rest =>
      match splitOnColon rest, decide (c = ':') with
      | r, true => [] :: r
      | [], false => [[c]]
      | h :: t, false => (c :: h) :: t

/-- Whitespace stripped by Python `str.strip()` (ASCII range). -/
def isPySpace (c : Char) : Bool :=
  c = ' ' || c = '\t' || c = '\n' || c = '\r' || c = '\x0b' || c = '\x0c'

/-- Python `str.strip()`. -/
def pyStrip (l : List Char) : List Char :=
  ((l.dropWhile isPySpace).reverse.dropWhile isPySpace).reverse

/-- Python `int()` on a string of decimal digits. -/
def digitsVal (l : List Char) : Nat :=
  l.foldl (fun a c => a * 10 + (c.toNat - '0'.toNat)) 0

/-- The exception taxonomy of `utils/exceptions.py` as raised by
`ErrorResponseParser.parse`.  `invalidCode` is the `VitreaException` carrying
the "Invalid error code" diagnostic built from the code text and full
response; `vitrea` is the generic `VitreaException` fallback. -/
inductive VitreaError where
  | wrongCommand (msg : List Char)
  | wrongNodeNumber (msg : List Char)
  | wrongKeyNumber (msg : List Char)
  | wrongInput (msg : List Char)
  | wrongScenario (msg : List Char)
  | nodeNotFound (msg : List Char)
  | vitrea (msg : List Char)
  | invalidCode (code response : List Char)
  deriving DecidableEq, Repr

/-- `ErrorResponseParser.parse`: split on `:` into exactly three fields,
check `isdigit`, dispatch on the numeric code, strip the message. -/
def ErrorResponseParser.parse (response : List Char) : Option VitreaError :=
  match splitOnColon response with
  | [_, code, message] =>
      if code ≠ [] ∧ code.all Char.isDigit then
        some (match digitsVal code with
          | 1 => .wrongCommand (pyStrip message)
          | 2 => .wrongNodeNumber (pyStrip message)
          | 3 => .wrongKeyNumber (pyStrip message)
          | 4 => .wrongInput (pyStrip message)
          | 5 => .wrongScenario (pyStrip message)
          | 6 => .nodeNotFound (pyStrip message)
          | _ => .vitrea (pyStrip message))
      else some (.invalidCode code response)
  | _ => none

/-! ## `VBoxConnection` (`vbox_connection.py`)

The inbound TCP stream is modelled as the list of bytes available to the
reader; `read(n)` on such a stream returns the first `n` bytes.  `_receive`
returns the decoded frame together with the bytes left in the stream.
Partial-stream situations (EOF in the middle of a frame, where asyncio
`read`/`readuntil` return short data or raise `IncompleteReadError`) are
outside the modelled domain and yield `none`. -/

/-- `await reader.readuntil(b"crlf")`: the data up to and including the first
CR LF pair, plus the remaining stream; `none` when no CR LF is present. -/
def readUntilCRLF : List Nat → Option (List Nat × List Nat)
  | [] => none
  | b :: rest =>
      if b = 13 ∧ rest.head? = some 10 then some ([13, 10], rest.tail)
      else (readUntilCRLF rest).map (fun lr => (b :: lr.1, lr.2))

/-- Whether a byte list contains an adjacent CR LF pair. -/
def containsCRLF : List Nat → Bool
  | [] => false
  | b :: rest => (b == 13 && rest.head? == some 10) || containsCRLF rest

namespace VBoxConnection

/-- `VBoxConnection._receive`: peek 2 bytes; if they are not `VT` read an
ASCII line up to CR LF and return prefix plus line; otherwise read the 5
remaining header bytes, compute the body length as
`int(info[-2:].hex()[1:], 16)` — the two length bytes rendered as four hex
digits with the FIRST digit dropped, i.e. `(info[3] % 16) * 256 + info[4]` —
and read that many body bytes. -/
def receive (stream : List Nat) : Option (List Nat × List Nat) :=
  let pfx := stream.take 2
  if pfx ≠ [86, 84] then
    match readUntilCRLF (stream.drop 2) with
    | none => none
    | some (line, rest) => some (pfx ++ line, rest)
  else
    let info := (stream.drop 2).take 5
    if info.length < 5 then none
    else
      let bodyLen := (info.getD 3 0) % 16 * 256 + info.getD 4 0
      if (stream.drop 7).length < bodyLen then none
      else some (pfx ++ info ++ (stream.drop 7).take bodyLen,
        (stream.drop 7).drop bodyLen)

/-- Command payloads handed to `VBoxConnection.send` (the `isinstance(command,
bytes)` check distinguishes real byte strings from text). -/
inductive Payload where
  | bytes (b : List Nat)
  | text (s : String)
  deriving DecidableEq, Repr

/-- Errors raised synchronously by `send`. -/
inductive SendErr where
  | typeError
  deriving DecidableEq, Repr

/-- The `VBoxConnection` fields touched by `send`/`request_reconnect`.
`reconnectTasks` counts the reconnect tasks spawned by `request_reconnect`
(additions to `self._tasks`). -/
structure ConnState where
  connected : Bool
  writerPresent : Bool
  enabled : Bool
  reconnecting : Bool
  commandQueue : List (List Nat)
  errorReason : String
  reconnectTasks : Nat
  deriving DecidableEq, Repr

/-- `VBoxConnection.request_reconnect`: under the reconnect lock, a no-op when
a reconnect is already in flight or the connection is disabled; otherwise mark
reconnecting and spawn one reconnect task. -/
def request_reconnect (s : ConnState) : ConnState :=
  if s.reconnecting || !s.enabled then s
  else { s with reconnecting := true, reconnectTasks := s.reconnectTasks + 1 }

/-- `VBoxConnection.send`: if not connected or no writer exists, mark
disconnected with reason `Send Failed`, request a reconnect and return
`False`; otherwise reject non-bytes payloads with `TypeError`, and enqueue
bytes payloads returning `True`. -/
def send (s : ConnState) (command : Payload) : ConnState × Except SendErr Bool :=
  if !s.connected || !s.writerPresent then
    (request_reconnect { s with connected := false, errorReason := "Send Failed" },
      .ok false)
  else
    match command with
    | .text _ => (s, .error .typeError)
    | .bytes b => ({ s with commandQueue := s.commandQueue ++ [b] }, .ok true)

/-! ### Reconnect backoff (`VBoxConnection.reconnect`)

`reconnect` is modelled on the execution where every connection attempt
fails (the execution the backoff claim quantifies over): each loop iteration
increments `attempts`, computes `delay = min(30, 1.0 * 2 ** (attempts - 1))`,
makes connection attempt number `attempts`, and — the attempt having failed —
sleeps `delay` seconds at the end of the iteration. -/

inductive ReconnectEvent where
  | attempt (n : Nat)
  | sleep (seconds : Nat)
  deriving DecidableEq, Repr

/-- The loop body of `reconnect` with `remaining = max_attempts - attempts`
iterations left, all attempts failing. -/
def reconnectGo : Nat → Nat → List ReconnectEvent
  | 0, _ => []
  | r + 1, attemptsDone =>
      let n := attemptsDone + 1
      .attempt n :: .sleep (min 30 (2 ^ (n - 1))) :: reconnectGo r n

/-- Outcome of a full `reconnect` run: the attempt/sleep event sequence, the
return value, and the final `reconnecting` flag. -/
structure ReconnectRun where
  events : List ReconnectEvent
  result : Bool
  reconnecting : Bool
  deriving DecidableEq, Repr

/-- `VBoxConnection.reconnect` when every attempt fails: 10 iterations
(`max_attempts = 10`, `base_delay = 1.0`), then the failure is logged, the
`reconnecting` flag is cleared and `False` is returned. -/
def reconnectAllFail : ReconnectRun :=
  { events := reconnectGo 10 0, result := false, reconnecting := false }

/-- The sleep event immediately preceding connection attempt `n` in an event
trace (0 when the attempt is not preceded by a sleep, e.g. the first). -/
def delayBefore (n : Nat) : List ReconnectEvent → Nat
  | [] => 0
  | .attempt m :: rest => if m = n then 0 else delayBefore n rest
  | .sleep s :: .attempt m :: rest =>
      if m = n then s else delayBefore n (.attempt m :: rest)
  | .sleep _ :: rest => delayBefore n rest

/-- The attempt numbers occurring in a trace. -/
def attemptsIn (tr : List ReconnectEvent) : List Nat :=
  tr.filterMap (fun e => match e with | .attempt n => some n | _ => none)

end VBoxConnection

/-! ## UTF-16 name decoding and the key-parameters parser
(`parameter_api/v3/responses/base.py`, `parameter_api/v3/responses/keys.py`) -/

namespace BaseParameterResponseParser

/-- `combine_bytes_to_words`: `(byte_list[i] << 8) + byte_list[i+1]` for each
adjacent pair; `none` models the `IndexError` raised on an odd-length list
(`byte_list[i + 1]` past the end). -/
def combine_bytes_to_words : List Nat → Option (List Nat)
  | [] => some []
  | [_] => none
  | b0 :: b1 :: rest =>
      (combine_bytes_to_words rest).map (fun ws => (b0 * 256 + b1) :: ws)

/-- One loop iteration of `byte_list_to_string`:
`struct.pack("<H", word)` serialises the word little-endian (low byte first;
`struct.error` for words ≥ 2^16), and `.decode("utf-16be")` reads those two
bytes back big-endian, producing the character with code point
`(word % 256) * 256 + word // 256` — the byte-swapped word — and raising
`UnicodeDecodeError` on a lone surrogate. -/
def swapDecodeWord (w : Nat) : Option Nat :=
  if w < 65536 then
    let c := (w % 256) * 256 + w / 256
    if 55296 ≤ c ∧ c ≤ 57343 then none else some c
  else none

/-- The word loop of `byte_list_to_string`: decode each word in order,
appending the characters; the first failure propagates. -/
def decodeWords : List Nat → Option (List Nat)
  | [] => some []
  | w :: ws =>
      (swapDecodeWord w).bind (fun c => (decodeWords ws).map (fun cs => c :: cs))

/-- `byte_list_to_string`: combine adjacent byte pairs into big-endian words,
then decode each word through the little-endian repack.  The resulting Python
string is modelled as its list of code points. -/
def byte_list_to_string (byteList : List Nat) : Option (List Nat) :=
  (combine_bytes_to_words byteList).bind decodeWords

end BaseParameterResponseParser

/-- The decoding the specification describes: each adjacent byte pair combined
into one 16-bit big-endian code unit, each code unit decoded as the UTF-16BE
character with that code.  (Stated for comparison with the code's
`byte_list_to_string`.) -/
def specDecodeWords : List Nat → Option (List Nat)
  | [] => some []
  | w :: ws =>
      if w < 65536 ∧ ¬ (55296 ≤ w ∧ w ≤ 57343) then
        (specDecodeWords ws).map (fun cs => w :: cs)
      else none

/-- The decoding the specification describes, lifted to a byte list. -/
def specUtf16beDecode (byteList : List Nat) : Option (List Nat) :=
  (BaseParameterResponseParser.combine_bytes_to_words byteList).bind
    specDecodeWords

/-- The code points `byte_list_to_string` actually produces: each adjacent
byte pair `(b0, b1)` yields the code point `b1 * 256 + b0` (the pair read
little-endian).  Used to state the amended C9. -/
def swappedCodes : List Nat → List Nat
  | b0 :: b1 :: rest => (b1 * 256 + b0) :: swappedCodes rest
  | _ => []

namespace KeyParamsParser

/-- `KeyParamsParser.parse_response` applied to the already-validated data
bytes (`response_bytes[7:-1]`): keypad id (2 bytes big-endian), key id, key
type (`KeyTypes(...)` raises `ValueError` for a value outside the enum), room
id (2 bytes big-endian), name length byte, then the UTF-16 name; finally
`validate_data` raises `ValueError("Name length mismatch")` unless
`name_len / 2 == len(name)` (Python true division, equivalent over naturals to
`name_len = 2 * len(name)`). -/
def parse_response_data (data : List Nat) :
    Except String (KeypadModel × KeyModel) :=
  if data.length < 7 then .error "IndexError"
  else if ¬ (data.getD 3 0) ∈ KeyTypes.values then .error "ValueError"
  else
    match BaseParameterResponseParser.byte_list_to_string (data.drop 7) with
    | none => .error "DecodeError"
    | some name =>
        if data.getD 6 0 = 2 * name.length then
          .ok (⟨data.getD 0 0 * 256 + data.getD 1 0⟩,
            ⟨data.getD 2 0, name, data.getD 3 0,
              data.getD 0 0 * 256 + data.getD 1 0,
              data.getD 4 0 * 256 + data.getD 5 0⟩)
        else .error "Name length mismatch"

end KeyParamsParser

/-! ## `VitreaDatabaseReader.feed` — data effect
(`parameter_api/v3/reader.py`, lines 245-336)

`feed` is modelled as a function over the reader fields it touches.  The
response-parser factory it dispatches to (`DBResponseParserFactory`,
`parameter_api/v3/responses/parser.py`) is not present under `src/`;
`Modelled from the spec:` the factory maps the raw frame to a parser whose
`parse_response` yields either discovered catalog entities or a counts
dictionary, and may enqueue follow-up commands through the reader's
sequential callback.  `feed` therefore takes that parse behaviour as an
arbitrary function argument — every theorem below holds for every possible
parser behaviour, which only strengthens the statements. -/

/-- Result of `parser.parse_response()` as consumed by `feed`: a list of
`BaseVitreaModel` entities, a counts dictionary, or anything else (logged
only). -/
inductive ParseItems where
  | entities (items : List DbEntity)
  | counts (pairs : List (String × Nat))
  | other
  deriving DecidableEq, Repr

/-- `feed`'s dictionary branch: assign the recognised `no_of_*` keys. -/
def applyCounts (db : VitreaDatabaseModel) (pairs : List (String × Nat)) :
    VitreaDatabaseModel :=
  pairs.foldl (fun db kv =>
    match kv.1 with
    | "no_of_floors" => { db with no_of_floors := kv.2 }
    | "no_of_rooms" => { db with no_of_rooms := kv.2 }
    | "no_of_keys" => { db with no_of_keys := kv.2 }
    | "no_of_acs" => { db with no_of_acs := kv.2 }
    | "no_of_scenarios" => { db with no_of_scenarios := kv.2 }
    | _ => db) db

/-- The database update `feed` performs for a parse result. -/
def applyItems (db : VitreaDatabaseModel) : ParseItems → VitreaDatabaseModel
  | .entities items => items.foldl VitreaDatabaseModel.add_object db
  | .counts pairs => applyCounts db pairs
  | .other => db

/-- The reader fields `feed` reads or writes.  `pendingRequestDone` is
`none` when `pending_request is None` and `some done` for an existing future
with the given done-flag; `followUpCommands` holds the queued follow-up
command identifiers; `followUpTaskActive` tracks `_follow_up_task`. -/
structure FeedState where
  db : VitreaDatabaseModel
  pendingRequestDone : Option Bool
  followUpCommands : List Nat
  followUpTaskActive : Bool
  deriving DecidableEq, Repr

/-- What `feed` did: returned without touching anything (no pending request),
resolved the grabbed future with the parse result, or rejected it with the
parse error. -/
inductive FeedOutcome where
  | discarded
  | resolved (r : ParseItems)
  | rejected (e : String)
  deriving DecidableEq, Repr

namespace VitreaDatabaseReader

/-- `VitreaDatabaseReader.feed`: under the request lock, grab the pending
future if one exists and is unresolved, else log and return; then parse the
frame (`parse` yields the items and any follow-up commands the parser queued),
update the database, resolve (or reject) the grabbed future, and spawn the
follow-up task exactly when follow-up commands are queued. -/
def feed (parse : List Nat → Except String (ParseItems × List Nat))
    (s : FeedState) (data : List Nat) : FeedState × FeedOutcome :=
  match s.pendingRequestDone with
  | none => (s, .discarded)
  | some true => (s, .discarded)
  | some false =>
      let s1 : FeedState := { s with pendingRequestDone := none }
      match parse data with
      | .error e => (s1, .rejected e)
      | .ok (items, followUps) =>
          let queue := s1.followUpCommands ++ followUps
          let newDb := applyItems s1.db items
          let s2 : FeedState :=
            { s1 with
                db := newDb
                followUpCommands := queue
                followUpTaskActive := !queue.isEmpty }
          (s2, .resolved items)

end VitreaDatabaseReader

/-! ## `VitreaDatabaseReader.send_command` / `feed` — concurrency model
(`parameter_api/v3/reader.py`, lines 147-207 and 245-268)

Small-step model of two tasks concurrently executing `send_command` on one
reader, under asyncio's cooperative scheduling: control changes hands only at
genuine suspension points, so each transition below is one code segment
between suspension points.  The segments of `send_command` are:

* `acquire` — `async with self.request_lock` (suspends until the lock is
  free);
* `checkFree`/`checkBusy` — the pending-request check; when a pending
  unresolved future exists the task suspends on `await self.pending_request`
  (still holding the lock), otherwise it runs straight through
  `self.pending_request = asyncio.Future()`, `serialize()` (no real
  suspension) up to the `await self.writer(command)` call;
* `waitDone`/`waitCancelled` — resumption of `await self.pending_request`:
  a resolved or failed future falls through (`except Exception: pass`) to
  the same create-and-send segment, a cancelled future raises
  `CancelledError` (not an `Exception`), unwinding out of the `async with`
  and releasing the lock;
* `write` — the bytes are passed to the writer callback;
* `release` — the future reference is stored and the `async with` block
  exits;
* `finishOK`/`finishFail`/`timeoutFire` — `await asyncio.wait_for(future,
  timeout)`: the future's result returns, its exception propagates, or the
  timeout fires and `wait_for` cancels the future;
* `clearAcquire`/`clearRun` — the timeout handler re-acquires the lock,
  clears `pending_request` if it still holds this task's future, and raises
  `TimeoutError` naming the command.

`feed` runs from its lock acquisition to `future.set_result`/`set_exception`
without any genuine suspension (parsing is pure), so it is one atomic step
(`feedResolve`/`feedReject`), enabled only while the lock is free; it grabs
the pending unresolved future, clears `pending_request`, and resolves or
rejects it. -/

namespace ReaderSM

/-- Status of an `asyncio.Future` created by `send_command`. -/
inductive FutStatus where
  | unresolved
  | resolved
  | failed
  | cancelled
  deriving DecidableEq, Repr

/-- Program counter of a task running `send_command` (one value per code
segment between suspension points). -/
inductive Pc where
  | start
  | check
  | waitPrev (p : Bool)
  | send
  | release
  | awaitRes
  | clearAcq
  | clearRun
  | finished
  | errTimeout
  | errCancelled
  | errFailed
  deriving DecidableEq, Repr

/-- Shared reader state plus the two tasks' control state.  The two callers
are indexed by `Bool`; each creates at most one future, so `fut t` is the
status of task `t`'s future (`none` before creation) and `pending` names the
task whose future `self.pending_request` currently references. -/
structure RState where
  lock : Option Bool
  pending : Option Bool
  fut : Bool → Option FutStatus
  pc : Bool → Pc
  err : Bool → Option String
  writes : List Bool

/-- The message of the `TimeoutError` raised by `send_command`. -/
def timeoutMessage (commandNumber : Nat) : String :=
  "Timeout waiting for response to command " ++ toString commandNumber

/-- The default of `send_command`'s `timeout` parameter (`5.0` seconds). -/
def sendCommandDefaultTimeout : ℚ := 5

/-- Both callers about to invoke `send_command`; fresh reader. -/
def init : RState :=
  { lock := none, pending := none, fut := fun _ => none,
    pc := fun _ => .start, err := fun _ => none, writes := [] }

/-- One step of the two-caller system; `c t` is the command number task `t`
sends. -/
inductive Step (c : Bool → Nat) : RState → RState → Prop where
  | acquire (s : RState) (t : Bool) :
      s.pc t = .start → s.lock = none →
      Step c s { s with lock := some t, pc := Function.update s.pc t .check }
  | checkFree (s : RState) (t : Bool) :
      s.pc t = .check →
      (∀ p, s.pending = some p → s.fut p ≠ some .unresolved) →
      Step c s { s with
        pending := some t
        fut := Function.update s.fut t (some .unresolved)
        pc := Function.update s.pc t .send }
  | checkBusy (s : RState) (t p : Bool) :
      s.pc t = .check → s.pending = some p → s.fut p = some .unresolved →
      Step c s { s with pc := Function.update s.pc t (.waitPrev p) }
  | waitDone (s : RState) (t p : Bool) :
      s.pc t = .waitPrev p →
      (s.fut p = some .resolved ∨ s.fut p = some .failed) →
      Step c s { s with
        pending := some t
        fut := Function.update s.fut t (some .unresolved)
        pc := Function.update s.pc t .send }
  | waitCancelled (s : RState) (t p : Bool) :
      s.pc t = .waitPrev p → s.fut p = some .cancelled →
      Step c s { s with
        lock := none
        pc := Function.update s.pc t .errCancelled }
  | write (s : RState) (t : Bool) :
      s.pc t = .send →
      Step c s { s with
        writes := s.writes ++ [t]
        pc := Function.update s.pc t .release }
  | release (s : RState) (t : Bool) :
      s.pc t = .release →
      Step c s { s with
        lock := none
        pc := Function.update s.pc t .awaitRes }
  | finishOK (s : RState) (t : Bool) :
      s.pc t = .awaitRes → s.fut t = some .resolved →
      Step c s { s with pc := Function.update s.pc t .finished }
  | finishFail (s : RState) (t : Bool) :
      s.pc t = .awaitRes → s.fut t = some .failed →
      Step c s { s with pc := Function.update s.pc t .errFailed }
  | timeoutFire (s : RState) (t : Bool) :
      s.pc t = .awaitRes → s.fut t = some .unresolved →
      Step c s { s with
        fut := Function.update s.fut t (some .cancelled)
        pc := Function.update s.pc t .clearAcq }
  | clearAcquire (s : RState) (t : Bool) :
      s.pc t = .clearAcq → s.lock = none →
      Step c s { s with
        lock := some t
        pc := Function.update s.pc t .clearRun }
  | clearRun (s : RState) (t : Bool) :
      s.pc t = .clearRun →
      Step c s { s with
        pending := if s.pending = some t then none else s.pending
        lock := none
        pc := Function.update s.pc t .errTimeout
        err := Function.update s.err t (some (timeoutMessage (c t))) }
  | feedResolve (s : RState) (p : Bool) :
      s.lock = none → s.pending = some p → s.fut p = some .unresolved →
      Step c s { s with
        pending := none
        fut := Function.update s.fut p (some .resolved) }
  | feedReject (s : RState) (p : Bool) :
      s.lock = none → s.pending = some p → s.fut p = some .unresolved →
      Step c s { s with
        pending := none
        fut := Function.update s.fut p (some .failed) }

/-- States reachable from the fresh two-caller configuration. -/
inductive Reach (c : Bool → Nat) : RState → Prop where
  | refl : Reach c init
  | tail {s s' : RState} (h : Reach c s) (hs : Step c s s') : Reach c s'

/-- Program counters at which the task holds the request lock. -/
def lockHeldPc : Pc → Bool
  | .check => true
  | .waitPrev _ => true
  | .send => true
  | .release => true
  | .clearRun => true
  | _ => false

/-- The inductive invariant of the two-caller system. -/
structure Inv (c : Bool → Nat) (s : RState) : Prop where
  lockOf : ∀ t, lockHeldPc (s.pc t) = true → s.lock = some t
  pcOfLock : ∀ t, s.lock = some t → lockHeldPc (s.pc t) = true
  sendOwner : ∀ t, (s.pc t = .send ∨ s.pc t = .release) →
    s.fut t = some .unresolved ∧ s.pending = some t
  unresolvedPending : ∀ t, s.fut t = some .unresolved → s.pending = some t
  waitTarget : ∀ t p, s.pc t = .waitPrev p → s.pending = some p
  clearFut : ∀ t, (s.pc t = .clearAcq ∨ s.pc t = .clearRun) →
    s.fut t = some .cancelled
  startFut : ∀ t, s.pc t = .start → s.fut t = none
  timeoutDone : ∀ t, s.pc t = .errTimeout →
    s.fut t = some .cancelled ∧ s.pending ≠ some t ∧
    s.err t = some (timeoutMessage (c t))
  pendingFut : ∀ p, s.pending = some p → s.fut p ≠ none

end ReaderSM

end Vitrea

namespace Vitrea

/-- C10 sanity example (fresh database is not loaded). -/
example : VitreaDatabaseModel.init.is_loaded = false := by decide

/-- C10: a freshly constructed `VitreaDatabaseModel` has every expected count
initialised to the sentinel `999`; `is_loaded()` holds exactly when each checked
category's stored-entity count equals its expected count (so it is `false` on
the fresh, empty database); and `serialize()` on the fresh database raises
`ValueError("Database is not fully loaded")` instead of returning a catalog. -/
theorem freshDatabase_not_loaded :
    (VitreaDatabaseModel.init.no_of_floors = 999 ∧
      VitreaDatabaseModel.init.no_of_rooms = 999 ∧
      VitreaDatabaseModel.init.no_of_keys = 999 ∧
      VitreaDatabaseModel.init.no_of_acs = 999 ∧
      VitreaDatabaseModel.init.no_of_scenarios = 999) ∧
    (∀ db : VitreaDatabaseModel,
      db.is_loaded = true ↔
        (db.floors.length = db.no_of_floors ∧
         db.rooms.length = db.no_of_rooms ∧
         db.keys.length = db.no_of_keys ∧
         db.air_conditioners.length = db.no_of_acs ∧
         db.scenarios.length = db.no_of_scenarios)) ∧
    VitreaDatabaseModel.init.is_loaded = false ∧
    VitreaDatabaseModel.init.serialize = .error "Database is not fully loaded" := by
  refine ⟨⟨rfl, rfl, rfl, rfl, rfl⟩, ?_, by decide, by rfl⟩
  intro db
  simp [VitreaDatabaseModel.is_loaded, VitreaDatabaseModel.is_floors_loaded,
    VitreaDatabaseModel.is_rooms_loaded, VitreaDatabaseModel.is_keys_loaded,
    VitreaDatabaseModel.is_acs_loaded, VitreaDatabaseModel.is_scenarios_loaded,
    and_assoc]

/-- Any frame finished by `add_checksum` has its checksum byte equal to the sum
of the preceding bytes mod 256, and passes `validate_checksum`. -/
theorem addChecksum_valid (body : List Nat) :
    (BaseParameterCommandGenerator.add_checksum body).dropLast.sum % 256 =
      (BaseParameterCommandGenerator.add_checksum body).getLastD 0 ∧
    BaseParameterResponseParser.validate_checksum
      (BaseParameterCommandGenerator.add_checksum body) = some true := by
  have hdrop : (BaseParameterCommandGenerator.add_checksum body).dropLast = body := by
    simp [BaseParameterCommandGenerator.add_checksum]
  have hlast : (BaseParameterCommandGenerator.add_checksum body).getLastD 0 =
      body.sum % 256 := by
    simp [BaseParameterCommandGenerator.add_checksum, List.getLastD_concat]
  have hne : (BaseParameterCommandGenerator.add_checksum body).isEmpty = false := by
    simp [BaseParameterCommandGenerator.add_checksum]
  have hmain : (BaseParameterCommandGenerator.add_checksum body).dropLast.sum % 256 =
      (BaseParameterCommandGenerator.add_checksum body).getLastD 0 := by
    rw [hdrop, hlast]
  refine ⟨hmain, ?_⟩
  simp [BaseParameterResponseParser.validate_checksum, hne, hmain]

/-- Every byte produced by `pairUp` from hex digits (< 16) fits in a byte. -/
theorem pairUp_lt :
    ∀ (l : List Nat), (∀ d ∈ l, d < 16) →
      ∀ b ∈ BaseParameterCommandGenerator.pairUp l, b < 256
  | [], _, b, hb => by simp [BaseParameterCommandGenerator.pairUp] at hb
  | [d], hl, b, hb => by
      simp only [BaseParameterCommandGenerator.pairUp, List.mem_singleton] at hb
      subst hb
      exact lt_trans (hl b (by simp)) (by norm_num)
  | d1 :: d2 :: rest, hl, b, hb => by
      simp only [BaseParameterCommandGenerator.pairUp, List.mem_cons] at hb
      rcases hb with hb | hb
      · have h1 : d1 < 16 := hl d1 (by simp)
        have h2 : d2 < 16 := hl d2 (by simp)
        omega
      · exact pairUp_lt rest (fun d hd => hl d (by simp [hd])) b hb

/-- Every byte of `_int_to_hex_word` fits in a byte. -/
theorem int_to_hex_word_lt (n : Nat) :
    ∀ b ∈ BaseParameterCommandGenerator.int_to_hex_word n, b < 256 := by
  apply pairUp_lt
  intro d hd
  simp only [List.mem_append, List.mem_replicate, List.mem_reverse] at hd
  rcases hd with hd | hd
  · omega
  · exact Nat.digits_lt_base (by norm_num) hd

/-- C2: every frame produced via the command generators' shared
`add_checksum` step — in particular `GetFloorNumbers.serialize` and
`GetFloorParams.serialize` — ends in a byte equal to the sum of all preceding
bytes mod 256, all its bytes fit in a byte (so `raw_unicode_escape` emits them
verbatim), and the inbound `validate_checksum` accepts the frame. -/
theorem checksum_roundtrip (floor_id : Nat) (commandNumber : Nat) (body : List Nat) :
    (∀ frame, GetFloorNumbers.serialize = some frame →
      frame.dropLast.sum % 256 = frame.getLastD 0 ∧
      (∀ b ∈ frame, b < 256) ∧
      BaseParameterResponseParser.validate_checksum frame = some true) ∧
    (∀ frame, GetFloorParams.serialize floor_id = some frame →
      frame.dropLast.sum % 256 = frame.getLastD 0 ∧
      (∀ b ∈ frame, b < 256) ∧
      BaseParameterResponseParser.validate_checksum frame = some true) ∧
    ((BaseParameterCommandGenerator.add_checksum
        (BaseParameterCommandGenerator.command_start commandNumber ++ body)).dropLast.sum
        % 256 =
      (BaseParameterCommandGenerator.add_checksum
        (BaseParameterCommandGenerator.command_start commandNumber ++ body)).getLastD 0 ∧
      BaseParameterResponseParser.validate_checksum
        (BaseParameterCommandGenerator.add_checksum
          (BaseParameterCommandGenerator.command_start commandNumber ++ body)) =
        some true) := by
  have hsplit : ∀ (l : List Nat) (b : Nat),
      b ∈ BaseParameterCommandGenerator.add_checksum l →
        b ∈ l ∨ b = l.sum % 256 := by
    intro l b hb
    simpa [BaseParameterCommandGenerator.add_checksum] using hb
  refine ⟨?_, ?_, addChecksum_valid _⟩
  · intro frame hframe
    have hlen : BaseParameterCommandGenerator.get_length 0 0 = some [0, 1] := by decide
    simp only [GetFloorNumbers.serialize, hlen, Option.map_some',
      Option.some.injEq] at hframe
    subst hframe
    refine ⟨(addChecksum_valid _).1, ?_, (addChecksum_valid _).2⟩
    intro b hb
    rcases hsplit _ _ hb with hb | hb
    · simp only [BaseParameterCommandGenerator.command_start,
        BaseParameterCommandGenerator.HEADER, GetFloorNumbers.COMMAND_NUMBER,
        List.mem_append, List.mem_cons, List.not_mem_nil, or_false] at hb
      omega
    · subst hb
      exact Nat.mod_lt _ (by norm_num)
  · intro frame hframe
    have hlen : BaseParameterCommandGenerator.get_length 0 2 = some [0, 3] := by decide
    simp only [GetFloorParams.serialize, hlen, Option.map_some',
      Option.some.injEq] at hframe
    subst hframe
    refine ⟨(addChecksum_valid _).1, ?_, (addChecksum_valid _).2⟩
    intro b hb
    rcases hsplit _ _ hb with hb | hb
    · simp only [BaseParameterCommandGenerator.command_start,
        BaseParameterCommandGenerator.HEADER, GetFloorParams.COMMAND_NUMBER,
        List.append_assoc, List.mem_append, List.mem_cons,
        List.not_mem_nil, or_false] at hb
      rcases hb with hb | hb | hb | hb
      · omega
      · omega
      · omega
      · exact int_to_hex_word_lt floor_id b hb
    · subst hb
      exact Nat.mod_lt _ (by norm_num)

/-- `str.split(":")` on a colon-free string yields that string alone. -/
theorem splitOnColon_no_colon (l : List Char) (h : ':' ∉ l) :
    splitOnColon l = [l] := by
  induction l with
  | nil => rfl
  | cons c rest ih =>
      have hc : ¬ (c = ':') := by
        intro hcc
        exact h (by simp [hcc])
      have hrest : ':' ∉ rest := fun hr => h (List.mem_cons_of_mem _ hr)
      simp [splitOnColon, ih hrest, hc]

/-- `str.split(":")` peels a leading colon-free field. -/
theorem splitOnColon_append (l rest : List Char) (h : ':' ∉ l) :
    splitOnColon (l ++ ':' :: rest) = l :: splitOnColon rest := by
  induction l with
  | nil => simp [splitOnColon]
  | cons c l ih =>
      have hc : ¬ (c = ':') := by
        intro hcc
        exact h (by simp [hcc])
      have hl : ':' ∉ l := fun hr => h (List.mem_cons_of_mem _ hr)
      simp [splitOnColon, ih hl, hc]

/-- C5: parsing the ASCII error frame `E:[code]:[message]` (numeric code,
colon-free message) raises the wrong-command error for code 1, wrong node
number for 2, wrong key number for 3, wrong input for 4, wrong scenario for 5,
node not found for 6, and the generic `VitreaException` for any other numeric
code; the carried message is always the third colon-separated field with
surrounding whitespace stripped. -/
theorem errorParser_taxonomy (code msg : List Char)
    (hcode : code ≠ []) (hdig : code.all Char.isDigit = true)
    (hmsg : ':' ∉ msg) :
    ErrorResponseParser.parse ('E' :: ':' :: (code ++ ':' :: msg)) =
      some (match digitsVal code with
        | 1 => .wrongCommand (pyStrip msg)
        | 2 => .wrongNodeNumber (pyStrip msg)
        | 3 => .wrongKeyNumber (pyStrip msg)
        | 4 => .wrongInput (pyStrip msg)
        | 5 => .wrongScenario (pyStrip msg)
        | 6 => .nodeNotFound (pyStrip msg)
        | _ => .vitrea (pyStrip msg)) := by
  have hnc : ':' ∉ code := by
    intro hc
    have hd := List.all_eq_true.mp hdig _ hc
    simp [Char.isDigit] at hd
  have hsplit :
      splitOnColon ('E' :: ':' :: (code ++ ':' :: msg)) = [['E'], code, msg] := by
    have h1 : splitOnColon (code ++ ':' :: msg) = code :: splitOnColon msg :=
      splitOnColon_append code msg hnc
    simp [splitOnColon, h1, splitOnColon_no_colon msg hmsg]
  rw [ErrorResponseParser.parse, hsplit]
  simp [hcode, hdig]

/-- Witness for C5: `E:3:bad key` yields the wrong-key-number error carrying
`bad key`. -/
theorem errorParser_taxonomy_witness :
    ErrorResponseParser.parse ('E' :: ':' :: (['3'] ++ ':' :: "bad key".toList)) =
      some (VitreaError.wrongKeyNumber "bad key".toList) := by
  rw [errorParser_taxonomy ['3'] "bad key".toList (by decide) (by decide) (by decide)]
  rfl

/-- `readuntil` stops at the first CR LF pair. -/
theorem readUntilCRLF_first :
    ∀ (line rest : List Nat), containsCRLF line = false →
      readUntilCRLF (line ++ 13 :: 10 :: rest) = some (line ++ [13, 10], rest)
  | [], rest, _ => by simp [readUntilCRLF]
  | b :: l, rest, h => by
      simp only [containsCRLF, Bool.or_eq_false_iff] at h
      obtain ⟨h1, h2⟩ := h
      have ih := readUntilCRLF_first l rest h2
      have hstep : readUntilCRLF ((b :: l) ++ 13 :: 10 :: rest) =
          (if b = 13 ∧ (l ++ 13 :: 10 :: rest).head? = some 10
            then some ([13, 10], (l ++ 13 :: 10 :: rest).tail)
            else (readUntilCRLF (l ++ 13 :: 10 :: rest)).map
              (fun lr => (b :: lr.1, lr.2))) := rfl
      have hcond : ¬ (b = 13 ∧ (l ++ 13 :: 10 :: rest).head? = some 10) := by
        rintro ⟨rfl, hb⟩
        cases l with
        | nil => simp at hb
        | cons x l2 =>
            simp only [List.cons_append, List.head?_cons, Option.some.injEq] at hb
            subst hb
            simp at h1
      rw [hstep, if_neg hcond, ih]
      simp

/-- C3 (amended): `_receive` peeks 2 bytes; a non-`VT` prefix is returned
together with the ASCII line through the first CR LF; a `VT` prefix is
followed by the 5 remaining header bytes and a body of exactly
`(lenHi % 16) * 256 + lenLo` bytes — the 2-byte big-endian length field with
its top hex nibble dropped (the length mod 4096), which agrees with the
declared big-endian length exactly when that length is below 4096. -/
theorem receive_frame_boundary (b0 b1 : Nat) (line tail : List Nat)
    (i0 i1 i2 i3 i4 : Nat) (tail2 : List Nat) :
    (¬ [b0, b1] = [86, 84] → containsCRLF line = false →
      VBoxConnection.receive (b0 :: b1 :: (line ++ 13 :: 10 :: tail)) =
        some (b0 :: b1 :: (line ++ [13, 10]), tail)) ∧
    ((i3 % 16) * 256 + i4 ≤ tail2.length →
      VBoxConnection.receive (86 :: 84 :: i0 :: i1 :: i2 :: i3 :: i4 :: tail2) =
        some ([86, 84, i0, i1, i2, i3, i4] ++
            tail2.take ((i3 % 16) * 256 + i4),
          tail2.drop ((i3 % 16) * 256 + i4))) := by
  constructor
  · intro hpfx hline
    simp only [VBoxConnection.receive, List.take_succ_cons, List.take_zero,
      List.drop_succ_cons, List.drop_zero, if_pos hpfx,
      readUntilCRLF_first line tail hline]
    simp
  · intro hlen
    have hstep : VBoxConnection.receive
        (86 :: 84 :: i0 :: i1 :: i2 :: i3 :: i4 :: tail2) =
        (if tail2.length < i3 % 16 * 256 + i4 then none
          else some
            (86 :: 84 :: i0 :: i1 :: i2 :: i3 :: i4 ::
              tail2.take (i3 % 16 * 256 + i4),
            tail2.drop (i3 % 16 * 256 + i4))) := rfl
    rw [hstep, if_neg (by omega)]
    simp

/-- Counterexample for C3: a binary frame whose header declares the big-endian
body length `0x1000 = 4096` but whose body is read as
`(0x10 % 16) * 256 + 0 = 0` bytes even though more bytes are available. -/
theorem receive_frame_boundary_counterexample :
    VBoxConnection.receive ([86, 84, 72, 60, 1, 16, 0] ++ List.replicate 10 55) =
      some ([86, 84, 72, 60, 1, 16, 0], List.replicate 10 55) ∧
    16 * 256 + 0 = 4096 ∧
    ([86, 84, 72, 60, 1, 16, 0] : List Nat).length = 7 := by
  refine ⟨by decide, by norm_num, rfl⟩

/-- Witness for C3 (amended): an ASCII line frame and a binary frame with a
2-byte body. -/
theorem receive_frame_boundary_witness :
    VBoxConnection.receive (72 :: 58 :: ([78] ++ 13 :: 10 :: [])) =
      some (72 :: 58 :: ([78] ++ [13, 10]), []) ∧
    VBoxConnection.receive (86 :: 84 :: 72 :: 60 :: 1 :: 0 :: 2 :: [9, 9]) =
      some ([86, 84, 72, 60, 1, 0, 2] ++
          ([9, 9] : List Nat).take (0 % 16 * 256 + 2),
        ([9, 9] : List Nat).drop (0 % 16 * 256 + 2)) :=
  ⟨(receive_frame_boundary 72 58 [78] [] 0 0 0 0 0 []).1 (by decide) (by decide),
    (receive_frame_boundary 0 0 [] [] 72 60 1 0 2 [9, 9]).2 (by decide)⟩

/-- Counterexample for C4: the delay before the very first connection attempt
is zero (the loop sleeps only after a failed attempt), not
`min(30, 2^(1-1)) = 1`. -/
theorem reconnect_backoff_counterexample :
    VBoxConnection.delayBefore 1 VBoxConnection.reconnectAllFail.events = 0 ∧
    min 30 (2 ^ (1 - 1)) = 1 ∧
    ¬ (VBoxConnection.delayBefore 1 VBoxConnection.reconnectAllFail.events =
        min 30 (2 ^ (1 - 1))) := by
  decide

/-- C4 (amended): with every attempt failing, `reconnect` makes exactly the
connection attempts 1..10; no delay precedes the first attempt, and attempt
`n` (2 ≤ n ≤ 10) is preceded by a sleep of `min(30, 2^(n-2))` seconds — the
backoff computed for (and slept after) the previous failed attempt; after the
10th failure the run ends with `False` and the `reconnecting` flag cleared, so
no further attempt occurs until a new failure triggers another request. -/
theorem reconnect_backoff_bounds (n : Nat) :
    VBoxConnection.delayBefore 1 VBoxConnection.reconnectAllFail.events = 0 ∧
    (2 ≤ n → n ≤ 10 →
      VBoxConnection.delayBefore n VBoxConnection.reconnectAllFail.events =
        min 30 (2 ^ (n - 2))) ∧
    VBoxConnection.attemptsIn VBoxConnection.reconnectAllFail.events =
      [1, 2, 3, 4, 5, 6, 7, 8, 9, 10] ∧
    VBoxConnection.reconnectAllFail.result = false ∧
    VBoxConnection.reconnectAllFail.reconnecting = false := by
  refine ⟨by decide, ?_, by decide, rfl, rfl⟩
  intro h2 h10
  interval_cases n <;> decide

/-- Witness for C4 (amended) at attempt 3: the preceding sleep is 2 seconds. -/
theorem reconnect_backoff_bounds_witness :
    VBoxConnection.delayBefore 3 VBoxConnection.reconnectAllFail.events =
      min 30 (2 ^ (3 - 2)) :=
  (reconnect_backoff_bounds 3).2.1 (by decide) (by decide)

/-- Counterexample for C6: on a disconnected connection, a non-bytes (text)
payload is NOT rejected with `TypeError` — the call takes the fail-fast branch
and returns `False` (the `isinstance` check runs only after the connected
check). -/
theorem send_counterexample :
    (VBoxConnection.send
        ⟨false, false, true, false, [], "Unknown Error", 0⟩
        (.text "H:N005:2:O:000")).2 = .ok false ∧
    (VBoxConnection.send
        ⟨false, false, true, false, [], "Unknown Error", 0⟩
        (.text "H:N005:2:O:000")).2 ≠
      Except.error VBoxConnection.SendErr.typeError := by
  refine ⟨rfl, ?_⟩
  intro h
  exact Except.noConfusion h

/-- C6 (amended): when not connected (or no writer), `send` returns `False`,
buffers nothing, marks the connection disconnected with reason `Send Failed`
and requests a reconnect (spawning one when none is in flight and the
connection is enabled); when connected with a writer, a text payload raises
`TypeError` and a bytes payload is enqueued with result `True`. -/
theorem send_contract (s : VBoxConnection.ConnState)
    (cmd : VBoxConnection.Payload) :
    (¬ (s.connected = true ∧ s.writerPresent = true) →
      (VBoxConnection.send s cmd).2 = .ok false ∧
      (VBoxConnection.send s cmd).1.commandQueue = s.commandQueue ∧
      (VBoxConnection.send s cmd).1.connected = false ∧
      (VBoxConnection.send s cmd).1.errorReason = "Send Failed" ∧
      (s.enabled = true → s.reconnecting = false →
        (VBoxConnection.send s cmd).1.reconnecting = true ∧
        (VBoxConnection.send s cmd).1.reconnectTasks = s.reconnectTasks + 1)) ∧
    (s.connected = true → s.writerPresent = true →
      (∀ str, cmd = .text str →
        (VBoxConnection.send s cmd).2 = .error .typeError) ∧
      (∀ b, cmd = .bytes b →
        (VBoxConnection.send s cmd).2 = .ok true ∧
        (VBoxConnection.send s cmd).1.commandQueue = s.commandQueue ++ [b])) := by
  constructor
  · intro hnc
    have hcase : (!s.connected || !s.writerPresent) = true := by
      by_cases hc : s.connected = true
      · rcases Bool.eq_false_or_eq_true s.writerPresent with hw | hw
        · exact absurd ⟨hc, hw⟩ hnc
        · simp [hw]
      · have hc2 : s.connected = false := by simpa using hc
        simp [hc2]
    have hsend : VBoxConnection.send s cmd =
        (VBoxConnection.request_reconnect
          { s with connected := false, errorReason := "Send Failed" },
          .ok false) := by
      simp [VBoxConnection.send, hcase]
    rw [hsend]
    refine ⟨rfl, ?_, ?_, ?_, ?_⟩
    · cases hrc : (s.reconnecting || !s.enabled) <;>
        simp [VBoxConnection.request_reconnect, hrc]
    · cases hrc : (s.reconnecting || !s.enabled) <;>
        simp [VBoxConnection.request_reconnect, hrc]
    · cases hrc : (s.reconnecting || !s.enabled) <;>
        simp [VBoxConnection.request_reconnect, hrc]
    · intro he hr
      simp [VBoxConnection.request_reconnect, he, hr]
  · intro hc hw
    have hcase : (!s.connected || !s.writerPresent) = false := by simp [hc, hw]
    constructor
    · intro str hcmd
      subst hcmd
      simp [VBoxConnection.send, hcase]
    · intro b hcmd
      subst hcmd
      simp [VBoxConnection.send, hcase]

/-- Witness for C6 (amended): a disconnected send of real bytes returns
`False` and spawns a reconnect task. -/
theorem send_contract_witness :
    (VBoxConnection.send ⟨false, true, true, false, [], "Unknown Error", 0⟩
        (.bytes [72])).2 = .ok false ∧
    (VBoxConnection.send ⟨false, true, true, false, [], "Unknown Error", 0⟩
        (.bytes [72])).1.reconnecting = true := by
  have h := (send_contract ⟨false, true, true, false, [], "Unknown Error", 0⟩
    (.bytes [72])).1 (by simp)
  exact ⟨h.1, (h.2.2.2.2 rfl rfl).1⟩

/-- `byte_list_to_string` byte-swaps every pair: on even-length byte input
whose swapped code points avoid the surrogate range, it returns exactly the
pairwise little-endian code points. -/
theorem byte_list_to_string_swaps :
    ∀ (payload : List Nat), payload.length % 2 = 0 →
      (∀ b ∈ payload, b < 256) →
      (∀ c ∈ swappedCodes payload, ¬ (55296 ≤ c ∧ c ≤ 57343)) →
      BaseParameterResponseParser.byte_list_to_string payload =
        some (swappedCodes payload)
  | [], _, _, _ => rfl
  | [_], h, _, _ => by simp at h
  | b0 :: b1 :: rest, heven, hbytes, hnosur => by
      have heven2 : rest.length % 2 = 0 := by
        simp only [List.length_cons] at heven
        omega
      have hbytes2 : ∀ b ∈ rest, b < 256 := fun b hb => hbytes b (by simp [hb])
      have hnosur2 : ∀ c ∈ swappedCodes rest, ¬ (55296 ≤ c ∧ c ≤ 57343) :=
        fun c hc => hnosur c (by simpa [swappedCodes] using Or.inr hc)
      have ih := byte_list_to_string_swaps rest heven2 hbytes2 hnosur2
      cases hcw : BaseParameterResponseParser.combine_bytes_to_words rest with
      | none =>
          rw [BaseParameterResponseParser.byte_list_to_string, hcw] at ih
          simp at ih
      | some ws =>
          rw [BaseParameterResponseParser.byte_list_to_string, hcw] at ih
          simp only [Option.some_bind] at ih
          have hb0 : b0 < 256 := hbytes b0 (by simp)
          have hb1 : b1 < 256 := hbytes b1 (by simp)
          have hw : BaseParameterResponseParser.combine_bytes_to_words
              (b0 :: b1 :: rest) = some ((b0 * 256 + b1) :: ws) := by
            simp [BaseParameterResponseParser.combine_bytes_to_words, hcw]
          have hswap : BaseParameterResponseParser.swapDecodeWord
              (b0 * 256 + b1) = some (b1 * 256 + b0) := by
            have hlt : b0 * 256 + b1 < 65536 := by omega
            have hmod : (b0 * 256 + b1) % 256 = b1 := by omega
            have hdiv : (b0 * 256 + b1) / 256 = b0 := by omega
            have hns : ¬ (55296 ≤ b1 * 256 + b0 ∧ b1 * 256 + b0 ≤ 57343) :=
              hnosur _ (by simp [swappedCodes])
            simp [BaseParameterResponseParser.swapDecodeWord, hlt, hmod, hdiv, hns]
          rw [BaseParameterResponseParser.byte_list_to_string, hw]
          simp [Option.some_bind, BaseParameterResponseParser.decodeWords,
            hswap, ih, swappedCodes]

/-- Counterexample for C9: the name bytes `00 41` (the UTF-16BE encoding of
`A`, code point 65) decode through `byte_list_to_string` to code point
`0x4100 = 16640`, not to the UTF-16BE character 65 the claim describes:
`struct.pack("<H", ...)` repacks the big-endian-combined word little-endian
before the `utf-16be` decode, swapping the bytes of every pair. -/
theorem keyName_decoding_counterexample :
    BaseParameterResponseParser.byte_list_to_string [0, 65] = some [16640] ∧
    specUtf16beDecode [0, 65] = some [65] ∧
    BaseParameterResponseParser.byte_list_to_string [0, 65] ≠
      specUtf16beDecode [0, 65] := by
  refine ⟨rfl, rfl, by decide⟩

/-- C9 (amended): for every key-parameters response, each adjacent byte pair
`(b0, b1)` of the name payload is combined into a big-endian word and decoded
through a little-endian repack, so the decoded character has code point
`b1 * 256 + b0`; and the parse fails with the `Name length mismatch`
validation error exactly when the declared name-length byte differs from
twice the number of decoded characters. -/
theorem keyParams_name_decoding (d0 d1 d2 d3 d4 d5 d6 : Nat)
    (payload : List Nat)
    (htype : d3 ∈ KeyTypes.values)
    (heven : payload.length % 2 = 0)
    (hbytes : ∀ b ∈ payload, b < 256)
    (hnosur : ∀ c ∈ swappedCodes payload, ¬ (55296 ≤ c ∧ c ≤ 57343)) :
    BaseParameterResponseParser.byte_list_to_string payload =
      some (swappedCodes payload) ∧
    (d6 = 2 * (swappedCodes payload).length →
      KeyParamsParser.parse_response_data
          (d0 :: d1 :: d2 :: d3 :: d4 :: d5 :: d6 :: payload) =
        .ok (⟨d0 * 256 + d1⟩,
          ⟨d2, swappedCodes payload, d3, d0 * 256 + d1, d4 * 256 + d5⟩)) ∧
    (d6 ≠ 2 * (swappedCodes payload).length →
      KeyParamsParser.parse_response_data
          (d0 :: d1 :: d2 :: d3 :: d4 :: d5 :: d6 :: payload) =
        .error "Name length mismatch") := by
  have hdec := byte_list_to_string_swaps payload heven hbytes hnosur
  have hlen7 : ¬ (d0 :: d1 :: d2 :: d3 :: d4 :: d5 :: d6 :: payload).length < 7 := by
    simp only [List.length_cons]
    omega
  have htype2 : ¬ ¬ (d0 :: d1 :: d2 :: d3 :: d4 :: d5 :: d6 ::
      payload).getD 3 0 ∈ KeyTypes.values := fun hno => hno htype
  have hstep : KeyParamsParser.parse_response_data
      (d0 :: d1 :: d2 :: d3 :: d4 :: d5 :: d6 :: payload) =
      (if d6 = 2 * (swappedCodes payload).length then
        .ok (⟨d0 * 256 + d1⟩,
          ⟨d2, swappedCodes payload, d3, d0 * 256 + d1, d4 * 256 + d5⟩)
      else .error "Name length mismatch") := by
    unfold KeyParamsParser.parse_response_data
    rw [if_neg hlen7, if_neg htype2]
    rw [show (d0 :: d1 :: d2 :: d3 :: d4 :: d5 :: d6 :: payload).drop 7 =
      payload from rfl]
    rw [hdec]
    rfl
  refine ⟨hdec, ?_, ?_⟩
  · intro hd6
    rw [hstep, if_pos hd6]
  · intro hd6
    rw [hstep, if_neg hd6]

/-- Witness for C9 (amended): name payload `41 00` decodes to `[65]` and the
declared length 2 passes the doubled-length check. -/
theorem keyParams_name_decoding_witness :
    KeyParamsParser.parse_response_data [0, 1, 2, 1, 0, 3, 2, 65, 0] =
      .ok (⟨1⟩, ⟨2, [65], 1, 1, 3⟩) := by
  have h := (keyParams_name_decoding 0 1 2 1 0 3 2 [65, 0] (by decide)
    (by decide) (by decide) (by decide)).2.1 (by decide)
  exact h

/-- C8: a `feed` call made while no pending request is outstanding (no
pending future, or the pending future already done) returns leaving the
reader state — in particular the catalog database and the follow-up command
queue — unchanged, for every possible parser behaviour. -/
theorem feed_unsolicited_discarded
    (parse : List Nat → Except String (ParseItems × List Nat))
    (s : FeedState) (data : List Nat)
    (h : s.pendingRequestDone = none ∨ s.pendingRequestDone = some true) :
    VitreaDatabaseReader.feed parse s data = (s, .discarded) ∧
    (VitreaDatabaseReader.feed parse s data).1.db = s.db ∧
    (VitreaDatabaseReader.feed parse s data).1.followUpCommands =
      s.followUpCommands ∧
    (VitreaDatabaseReader.feed parse s data).1.followUpTaskActive =
      s.followUpTaskActive := by
  have hmain : VitreaDatabaseReader.feed parse s data = (s, .discarded) := by
    rcases h with h | h <;> simp [VitreaDatabaseReader.feed, h]
  exact ⟨hmain, by rw [hmain], by rw [hmain], by rw [hmain]⟩

/-- Witness for C8 on a fresh reader state with no pending request. -/
theorem feed_unsolicited_discarded_witness :
    VitreaDatabaseReader.feed (fun _ => .ok (.other, []))
        ⟨VitreaDatabaseModel.init, none, [], false⟩ [86, 84] =
      (⟨VitreaDatabaseModel.init, none, [], false⟩, .discarded) :=
  (feed_unsolicited_discarded (fun _ => .ok (.other, []))
    ⟨VitreaDatabaseModel.init, none, [], false⟩ [86, 84] (Or.inl rfl)).1

namespace ReaderSM

/-- The invariant holds initially. -/
theorem inv_init (c : Bool → Nat) : Inv c init := by
  constructor <;> intros <;> simp_all [init, lockHeldPc]

/-- The invariant is preserved by every step. -/
theorem inv_step {c : Bool → Nat} {s s' : RState} (hinv : Inv c s)
    (hstep : Step c s s') : Inv c s' := by
  obtain ⟨hLO, hPL, hSO, hUP, hWT, hCF, hSF, hTD, hPF⟩ := hinv
  cases hstep with
  | acquire t hpc hlock =>
      refine ⟨?_, ?_, ?_, ?_, ?_, ?_, ?_, ?_, ?_⟩
      · intro u hu
        by_cases h : u = t
        · subst h; rfl
        · simp only [Function.update_noteq h] at hu
          exact absurd (hLO u hu) (by simp [hlock])
      · intro u hu
        have h : t = u := by simpa using hu
        subst h
        simp [Function.update_same, lockHeldPc]
      · intro u hu
        by_cases h : u = t
        · subst h
          simp only [Function.update_same] at hu
          rcases hu with hu | hu <;> simp at hu
        · simp only [Function.update_noteq h] at hu
          exact hSO u hu
      · intro u hu
        exact hUP u hu
      · intro u p hu
        by_cases h : u = t
        · subst h; simp only [Function.update_same] at hu; simp at hu
        · simp only [Function.update_noteq h] at hu
          exact hWT u p hu
      · intro u hu
        by_cases h : u = t
        · subst h
          simp only [Function.update_same] at hu
          rcases hu with hu | hu <;> simp at hu
        · simp only [Function.update_noteq h] at hu
          exact hCF u hu
      · intro u hu
        by_cases h : u = t
        · subst h; simp only [Function.update_same] at hu; simp at hu
        · simp only [Function.update_noteq h] at hu
          exact hSF u hu
      · intro u hu
        by_cases h : u = t
        · subst h; simp only [Function.update_same] at hu; simp at hu
        · simp only [Function.update_noteq h] at hu
          exact hTD u hu
      · intro p hp
        exact hPF p hp
  | checkFree t hpc hfree =>
      refine ⟨?_, ?_, ?_, ?_, ?_, ?_, ?_, ?_, ?_⟩
      · intro u hu
        by_cases h : u = t
        · subst h
          exact hLO u (by rw [hpc]; rfl)
        · simp only [Function.update_noteq h] at hu
          exact hLO u hu
      · intro u hu
        by_cases h : u = t
        · subst h; simp [Function.update_same, lockHeldPc]
        · simp only [Function.update_noteq h]
          exact hPL u hu
      · intro u hu
        by_cases h : u = t
        · subst h
          exact ⟨by simp [Function.update_same], rfl⟩
        · simp only [Function.update_noteq h] at hu
          have h1 := hLO t (by rw [hpc]; rfl)
          have h2 := hLO u (by rcases hu with hu | hu <;> rw [hu] <;> rfl)
          rw [h1] at h2
          exact absurd (Option.some.inj h2).symm h
      · intro u hu
        by_cases h : u = t
        · subst h; rfl
        · simp only [Function.update_noteq h] at hu
          exact absurd hu (hfree u (hUP u hu))
      · intro u p hu
        by_cases h : u = t
        · subst h; simp only [Function.update_same] at hu; simp at hu
        · simp only [Function.update_noteq h] at hu
          have h1 := hLO t (by rw [hpc]; rfl)
          have h2 := hLO u (by rw [hu]; rfl)
          rw [h1] at h2
          exact absurd (Option.some.inj h2).symm h
      · intro u hu
        by_cases h : u = t
        · subst h
          simp only [Function.update_same] at hu
          rcases hu with hu | hu <;> simp at hu
        · simp only [Function.update_noteq h] at hu
          simp only [Function.update_noteq h]
          exact hCF u hu
      · intro u hu
        by_cases h : u = t
        · subst h; simp only [Function.update_same] at hu; simp at hu
        · simp only [Function.update_noteq h] at hu
          simp only [Function.update_noteq h]
          exact hSF u hu
      · intro u hu
        by_cases h : u = t
        · subst h; simp only [Function.update_same] at hu; simp at hu
        · simp only [Function.update_noteq h] at hu
          refine ⟨?_, ?_, (hTD u hu).2.2⟩
          · simp only [Function.update_noteq h]
            exact (hTD u hu).1
          · intro hp
            exact h (Option.some.inj hp).symm
      · intro p hp
        have h : t = p := Option.some.inj hp
        subst h
        simp [Function.update_same]
  | checkBusy t p hpc hpend hfut =>
      refine ⟨?_, ?_, ?_, ?_, ?_, ?_, ?_, ?_, ?_⟩
      · intro u hu
        by_cases h : u = t
        · subst h
          exact hLO u (by rw [hpc]; rfl)
        · simp only [Function.update_noteq h] at hu
          exact hLO u hu
      · intro u hu
        by_cases h : u = t
        · subst h; simp [Function.update_same, lockHeldPc]
        · simp only [Function.update_noteq h]
          exact hPL u hu
      · intro u hu
        by_cases h : u = t
        · subst h
          simp only [Function.update_same] at hu
          rcases hu with hu | hu <;> simp at hu
        · simp only [Function.update_noteq h] at hu
          exact hSO u hu
      · intro u hu
        exact hUP u hu
      · intro u q hu
        by_cases h : u = t
        · subst h
          simp only [Function.update_same] at hu
          obtain rfl := Pc.waitPrev.inj hu
          exact hpend
        · simp only [Function.update_noteq h] at hu
          exact hWT u q hu
      · intro u hu
        by_cases h : u = t
        · subst h
          simp only [Function.update_same] at hu
          rcases hu with hu | hu <;> simp at hu
        · simp only [Function.update_noteq h] at hu
          exact hCF u hu
      · intro u hu
        by_cases h : u = t
        · subst h; simp only [Function.update_same] at hu; simp at hu
        · simp only [Function.update_noteq h] at hu
          exact hSF u hu
      · intro u hu
        by_cases h : u = t
        · subst h; simp only [Function.update_same] at hu; simp at hu
        · simp only [Function.update_noteq h] at hu
          exact hTD u hu
      · intro q hq
        exact hPF q hq
  | waitDone t p hpc hdone =>
      refine ⟨?_, ?_, ?_, ?_, ?_, ?_, ?_, ?_, ?_⟩
      · intro u hu
        by_cases h : u = t
        · subst h
          exact hLO u (by rw [hpc]; rfl)
        · simp only [Function.update_noteq h] at hu
          exact hLO u hu
      · intro u hu
        by_cases h : u = t
        · subst h; simp [Function.update_same, lockHeldPc]
        · simp only [Function.update_noteq h]
          exact hPL u hu
      · intro u hu
        by_cases h : u = t
        · subst h
          exact ⟨by simp [Function.update_same], rfl⟩
        · simp only [Function.update_noteq h] at hu
          have h1 := hLO t (by rw [hpc]; rfl)
          have h2 := hLO u (by rcases hu with hu | hu <;> rw [hu] <;> rfl)
          rw [h1] at h2
          exact absurd (Option.some.inj h2).symm h
      · intro u hu
        by_cases h : u = t
        · subst h; rfl
        · simp only [Function.update_noteq h] at hu
          have h1 := hUP u hu
          have h2 := hWT t p hpc
          rw [h1] at h2
          obtain rfl := Option.some.inj h2
          rcases hdone with hd | hd <;> rw [hd] at hu <;> simp at hu
      · intro u q hu
        by_cases h : u = t
        · subst h; simp only [Function.update_same] at hu; simp at hu
        · simp only [Function.update_noteq h] at hu
          have h1 := hLO t (by rw [hpc]; rfl)
          have h2 := hLO u (by rw [hu]; rfl)
          rw [h1] at h2
          exact absurd (Option.some.inj h2).symm h
      · intro u hu
        by_cases h : u = t
        · subst h
          simp only [Function.update_same] at hu
          rcases hu with hu | hu <;> simp at hu
        · simp only [Function.update_noteq h] at hu
          simp only [Function.update_noteq h]
          exact hCF u hu
      · intro u hu
        by_cases h : u = t
        · subst h; simp only [Function.update_same] at hu; simp at hu
        · simp only [Function.update_noteq h] at hu
          simp only [Function.update_noteq h]
          exact hSF u hu
      · intro u hu
        by_cases h : u = t
        · subst h; simp only [Function.update_same] at hu; simp at hu
        · simp only [Function.update_noteq h] at hu
          refine ⟨?_, ?_, (hTD u hu).2.2⟩
          · simp only [Function.update_noteq h]
            exact (hTD u hu).1
          · intro hp
            exact h (Option.some.inj hp).symm
      · intro q hq
        have h : t = q := Option.some.inj hq
        subst h
        simp [Function.update_same]
  | waitCancelled t p hpc hfc =>
      refine ⟨?_, ?_, ?_, ?_, ?_, ?_, ?_, ?_, ?_⟩
      · intro u hu
        by_cases h : u = t
        · subst h; simp only [Function.update_same] at hu; simp [lockHeldPc] at hu
        · simp only [Function.update_noteq h] at hu
          have h1 := hLO t (by rw [hpc]; rfl)
          have h2 := hLO u hu
          rw [h1] at h2
          exact absurd (Option.some.inj h2).symm h
      · intro u hu
        simp at hu
      · intro u hu
        by_cases h : u = t
        · subst h
          simp only [Function.update_same] at hu
          rcases hu with hu | hu <;> simp at hu
        · simp only [Function.update_noteq h] at hu
          exact hSO u hu
      · intro u hu
        exact hUP u hu
      · intro u q hu
        by_cases h : u = t
        · subst h; simp only [Function.update_same] at hu; simp at hu
        · simp only [Function.update_noteq h] at hu
          exact hWT u q hu
      · intro u hu
        by_cases h : u = t
        · subst h
          simp only [Function.update_same] at hu
          rcases hu with hu | hu <;> simp at hu
        · simp only [Function.update_noteq h] at hu
          exact hCF u hu
      · intro u hu
        by_cases h : u = t
        · subst h; simp only [Function.update_same] at hu; simp at hu
        · simp only [Function.update_noteq h] at hu
          exact hSF u hu
      · intro u hu
        by_cases h : u = t
        · subst h; simp only [Function.update_same] at hu; simp at hu
        · simp only [Function.update_noteq h] at hu
          exact hTD u hu
      · intro q hq
        exact hPF q hq
  | write t hpc =>
      refine ⟨?_, ?_, ?_, ?_, ?_, ?_, ?_, ?_, ?_⟩
      · intro u hu
        by_cases h : u = t
        · subst h
          exact hLO u (by rw [hpc]; rfl)
        · simp only [Function.update_noteq h] at hu
          exact hLO u hu
      · intro u hu
        by_cases h : u = t
        · subst h; simp [Function.update_same, lockHeldPc]
        · simp only [Function.update_noteq h]
          exact hPL u hu
      · intro u hu
        by_cases h : u = t
        · subst h
          exact hSO u (Or.inl hpc)
        · simp only [Function.update_noteq h] at hu
          exact hSO u hu
      · intro u hu
        exact hUP u hu
      · intro u q hu
        by_cases h : u = t
        · subst h; simp only [Function.update_same] at hu; simp at hu
        · simp only [Function.update_noteq h] at hu
          exact hWT u q hu
      · intro u hu
        by_cases h : u = t
        · subst h
          simp only [Function.update_same] at hu
          rcases hu with hu | hu <;> simp at hu
        · simp only [Function.update_noteq h] at hu
          exact hCF u hu
      · intro u hu
        by_cases h : u = t
        · subst h; simp only [Function.update_same] at hu; simp at hu
        · simp only [Function.update_noteq h] at hu
          exact hSF u hu
      · intro u hu
        by_cases h : u = t
        · subst h; simp only [Function.update_same] at hu; simp at hu
        · simp only [Function.update_noteq h] at hu
          exact hTD u hu
      · intro q hq
        exact hPF q hq
  | release t hpc =>
      refine ⟨?_, ?_, ?_, ?_, ?_, ?_, ?_, ?_, ?_⟩
      · intro u hu
        by_cases h : u = t
        · subst h; simp only [Function.update_same] at hu; simp [lockHeldPc] at hu
        · simp only [Function.update_noteq h] at hu
          have h1 := hLO t (by rw [hpc]; rfl)
          have h2 := hLO u hu
          rw [h1] at h2
          exact absurd (Option.some.inj h2).symm h
      · intro u hu
        simp at hu
      · intro u hu
        by_cases h : u = t
        · subst h
          simp only [Function.update_same] at hu
          rcases hu with hu | hu <;> simp at hu
        · simp only [Function.update_noteq h] at hu
          exact hSO u hu
      · intro u hu
        exact hUP u hu
      · intro u q hu
        by_cases h : u = t
        · subst h; simp only [Function.update_same] at hu; simp at hu
        · simp only [Function.update_noteq h] at hu
          exact hWT u q hu
      · intro u hu
        by_cases h : u = t
        · subst h
          simp only [Function.update_same] at hu
          rcases hu with hu | hu <;> simp at hu
        · simp only [Function.update_noteq h] at hu
          exact hCF u hu
      · intro u hu
        by_cases h : u = t
        · subst h; simp only [Function.update_same] at hu; simp at hu
        · simp only [Function.update_noteq h] at hu
          exact hSF u hu
      · intro u hu
        by_cases h : u = t
        · subst h; simp only [Function.update_same] at hu; simp at hu
        · simp only [Function.update_noteq h] at hu
          exact hTD u hu
      · intro q hq
        exact hPF q hq
  | finishOK t hpc hfr =>
      refine ⟨?_, ?_, ?_, ?_, ?_, ?_, ?_, ?_, ?_⟩
      · intro u hu
        by_cases h : u = t
        · subst h; simp only [Function.update_same] at hu; simp [lockHeldPc] at hu
        · simp only [Function.update_noteq h] at hu
          exact hLO u hu
      · intro u hu
        have h0 := hPL u hu
        by_cases h : u = t
        · subst h
          rw [hpc] at h0
          simp [lockHeldPc] at h0
        · simp only [Function.update_noteq h]
          exact h0
      · intro u hu
        by_cases h : u = t
        · subst h
          simp only [Function.update_same] at hu
          rcases hu with hu | hu <;> simp at hu
        · simp only [Function.update_noteq h] at hu
          exact hSO u hu
      · intro u hu
        exact hUP u hu
      · intro u q hu
        by_cases h : u = t
        · subst h; simp only [Function.update_same] at hu; simp at hu
        · simp only [Function.update_noteq h] at hu
          exact hWT u q hu
      · intro u hu
        by_cases h : u = t
        · subst h
          simp only [Function.update_same] at hu
          rcases hu with hu | hu <;> simp at hu
        · simp only [Function.update_noteq h] at hu
          exact hCF u hu
      · intro u hu
        by_cases h : u = t
        · subst h; simp only [Function.update_same] at hu; simp at hu
        · simp only [Function.update_noteq h] at hu
          exact hSF u hu
      · intro u hu
        by_cases h : u = t
        · subst h; simp only [Function.update_same] at hu; simp at hu
        · simp only [Function.update_noteq h] at hu
          exact hTD u hu
      · intro q hq
        exact hPF q hq
  | finishFail t hpc hfr =>
      refine ⟨?_, ?_, ?_, ?_, ?_, ?_, ?_, ?_, ?_⟩
      · intro u hu
        by_cases h : u = t
        · subst h; simp only [Function.update_same] at hu; simp [lockHeldPc] at hu
        · simp only [Function.update_noteq h] at hu
          exact hLO u hu
      · intro u hu
        have h0 := hPL u hu
        by_cases h : u = t
        · subst h
          rw [hpc] at h0
          simp [lockHeldPc] at h0
        · simp only [Function.update_noteq h]
          exact h0
      · intro u hu
        by_cases h : u = t
        · subst h
          simp only [Function.update_same] at hu
          rcases hu with hu | hu <;> simp at hu
        · simp only [Function.update_noteq h] at hu
          exact hSO u hu
      · intro u hu
        exact hUP u hu
      · intro u q hu
        by_cases h : u = t
        · subst h; simp only [Function.update_same] at hu; simp at hu
        · simp only [Function.update_noteq h] at hu
          exact hWT u q hu
      · intro u hu
        by_cases h : u = t
        · subst h
          simp only [Function.update_same] at hu
          rcases hu with hu | hu <;> simp at hu
        · simp only [Function.update_noteq h] at hu
          exact hCF u hu
      · intro u hu
        by_cases h : u = t
        · subst h; simp only [Function.update_same] at hu; simp at hu
        · simp only [Function.update_noteq h] at hu
          exact hSF u hu
      · intro u hu
        by_cases h : u = t
        · subst h; simp only [Function.update_same] at hu; simp at hu
        · simp only [Function.update_noteq h] at hu
          exact hTD u hu
      · intro q hq
        exact hPF q hq
  | timeoutFire t hpc hfu =>
      refine ⟨?_, ?_, ?_, ?_, ?_, ?_, ?_, ?_, ?_⟩
      · intro u hu
        by_cases h : u = t
        · subst h; simp only [Function.update_same] at hu; simp [lockHeldPc] at hu
        · simp only [Function.update_noteq h] at hu
          exact hLO u hu
      · intro u hu
        have h0 := hPL u hu
        by_cases h : u = t
        · subst h
          rw [hpc] at h0
          simp [lockHeldPc] at h0
        · simp only [Function.update_noteq h]
          exact h0
      · intro u hu
        by_cases h : u = t
        · subst h
          simp only [Function.update_same] at hu
          rcases hu with hu | hu <;> simp at hu
        · simp only [Function.update_noteq h] at hu
          refine ⟨?_, (hSO u hu).2⟩
          simp only [Function.update_noteq h]
          exact (hSO u hu).1
      · intro u hu
        by_cases h : u = t
        · subst h; simp only [Function.update_same] at hu; simp at hu
        · simp only [Function.update_noteq h] at hu
          exact hUP u hu
      · intro u q hu
        by_cases h : u = t
        · subst h; simp only [Function.update_same] at hu; simp at hu
        · simp only [Function.update_noteq h] at hu
          exact hWT u q hu
      · intro u hu
        by_cases h : u = t
        · subst h
          simp [Function.update_same]
        · simp only [Function.update_noteq h] at hu
          simp only [Function.update_noteq h]
          exact hCF u hu
      · intro u hu
        by_cases h : u = t
        · subst h; simp only [Function.update_same] at hu; simp at hu
        · simp only [Function.update_noteq h] at hu
          simp only [Function.update_noteq h]
          exact hSF u hu
      · intro u hu
        by_cases h : u = t
        · subst h; simp only [Function.update_same] at hu; simp at hu
        · simp only [Function.update_noteq h] at hu
          refine ⟨?_, (hTD u hu).2.1, (hTD u hu).2.2⟩
          simp only [Function.update_noteq h]
          exact (hTD u hu).1
      · intro q hq
        have h0 := hPF q hq
        by_cases h : q = t
        · subst h
          simp [Function.update_same]
        · simp only [Function.update_noteq h]
          exact h0
  | clearAcquire t hpc hlock =>
      refine ⟨?_, ?_, ?_, ?_, ?_, ?_, ?_, ?_, ?_⟩
      · intro u hu
        by_cases h : u = t
        · subst h; rfl
        · simp only [Function.update_noteq h] at hu
          exact absurd (hLO u hu) (by simp [hlock])
      · intro u hu
        have h : t = u := by simpa using hu
        subst h
        simp [Function.update_same, lockHeldPc]
      · intro u hu
        by_cases h : u = t
        · subst h
          simp only [Function.update_same] at hu
          rcases hu with hu | hu <;> simp at hu
        · simp only [Function.update_noteq h] at hu
          exact hSO u hu
      · intro u hu
        exact hUP u hu
      · intro u q hu
        by_cases h : u = t
        · subst h; simp only [Function.update_same] at hu; simp at hu
        · simp only [Function.update_noteq h] at hu
          exact hWT u q hu
      · intro u hu
        by_cases h : u = t
        · subst h
          exact hCF u (Or.inl hpc)
        · simp only [Function.update_noteq h] at hu
          exact hCF u hu
      · intro u hu
        by_cases h : u = t
        · subst h; simp only [Function.update_same] at hu; simp at hu
        · simp only [Function.update_noteq h] at hu
          exact hSF u hu
      · intro u hu
        by_cases h : u = t
        · subst h; simp only [Function.update_same] at hu; simp at hu
        · simp only [Function.update_noteq h] at hu
          exact hTD u hu
      · intro q hq
        exact hPF q hq
  | clearRun t hpc =>
      refine ⟨?_, ?_, ?_, ?_, ?_, ?_, ?_, ?_, ?_⟩
      · intro u hu
        by_cases h : u = t
        · subst h; simp only [Function.update_same] at hu; simp [lockHeldPc] at hu
        · simp only [Function.update_noteq h] at hu
          have h1 := hLO t (by rw [hpc]; rfl)
          have h2 := hLO u hu
          rw [h1] at h2
          exact absurd (Option.some.inj h2).symm h
      · intro u hu
        simp at hu
      · intro u hu
        by_cases h : u = t
        · subst h
          simp only [Function.update_same] at hu
          rcases hu with hu | hu <;> simp at hu
        · simp only [Function.update_noteq h] at hu
          have h1 := hLO t (by rw [hpc]; rfl)
          have h2 := hLO u (by rcases hu with hu | hu <;> rw [hu] <;> rfl)
          rw [h1] at h2
          exact absurd (Option.some.inj h2).symm h
      · intro u hu
        have h1 := hUP u hu
        by_cases hp : s.pending = some t
        · rw [h1] at hp
          obtain rfl := Option.some.inj hp
          have hc := hCF u (Or.inr hpc)
          rw [hc] at hu
          simp at hu
        · rw [if_neg hp]
          exact h1
      · intro u q hu
        by_cases h : u = t
        · subst h; simp only [Function.update_same] at hu; simp at hu
        · simp only [Function.update_noteq h] at hu
          have h1 := hLO t (by rw [hpc]; rfl)
          have h2 := hLO u (by rw [hu]; rfl)
          rw [h1] at h2
          exact absurd (Option.some.inj h2).symm h
      · intro u hu
        by_cases h : u = t
        · subst h
          simp only [Function.update_same] at hu
          rcases hu with hu | hu <;> simp at hu
        · simp only [Function.update_noteq h] at hu
          exact hCF u hu
      · intro u hu
        by_cases h : u = t
        · subst h; simp only [Function.update_same] at hu; simp at hu
        · simp only [Function.update_noteq h] at hu
          exact hSF u hu
      · intro u hu
        by_cases h : u = t
        · subst h
          refine ⟨hCF u (Or.inr hpc), ?_, by simp [Function.update_same]⟩
          by_cases hp : s.pending = some u
          · rw [if_pos hp]
            simp
          · rw [if_neg hp]
            exact hp
        · simp only [Function.update_noteq h] at hu
          refine ⟨(hTD u hu).1, ?_, ?_⟩
          · by_cases hp : s.pending = some t
            · rw [if_pos hp]
              simp
            · rw [if_neg hp]
              exact (hTD u hu).2.1
          · simp only [Function.update_noteq h]
            exact (hTD u hu).2.2
      · intro q hq
        by_cases hp : s.pending = some t
        · rw [if_pos hp] at hq
          simp at hq
        · rw [if_neg hp] at hq
          exact hPF q hq
  | feedResolve p hlock hpend hfut =>
      refine ⟨?_, ?_, ?_, ?_, ?_, ?_, ?_, ?_, ?_⟩
      · intro u hu
        exact absurd (hLO u hu) (by simp [hlock])
      · intro u hu
        simp [hlock] at hu
      · intro u hu
        exact absurd (hLO u (by rcases hu with hu | hu <;> rw [hu] <;> rfl))
          (by simp [hlock])
      · intro u hu
        by_cases h : u = p
        · subst h; simp only [Function.update_same] at hu; simp at hu
        · simp only [Function.update_noteq h] at hu
          have h1 := hUP u hu
          rw [hpend] at h1
          exact absurd (Option.some.inj h1).symm h
      · intro u q hu
        exact absurd (hLO u (by rw [hu]; rfl)) (by simp [hlock])
      · intro u hu
        have hc := hCF u hu
        by_cases h : u = p
        · subst h
          rw [hc] at hfut
          simp at hfut
        · simp only [Function.update_noteq h]
          exact hc
      · intro u hu
        have h0 := hSF u hu
        by_cases h : u = p
        · subst h
          rw [h0] at hfut
          simp at hfut
        · simp only [Function.update_noteq h]
          exact h0
      · intro u hu
        have h0 := hTD u hu
        by_cases h : u = p
        · subst h
          rw [h0.1] at hfut
          simp at hfut
        · refine ⟨?_, by simp, h0.2.2⟩
          simp only [Function.update_noteq h]
          exact h0.1
      · intro q hq
        simp at hq
  | feedReject p hlock hpend hfut =>
      refine ⟨?_, ?_, ?_, ?_, ?_, ?_, ?_, ?_, ?_⟩
      · intro u hu
        exact absurd (hLO u hu) (by simp [hlock])
      · intro u hu
        simp [hlock] at hu
      · intro u hu
        exact absurd (hLO u (by rcases hu with hu | hu <;> rw [hu] <;> rfl))
          (by simp [hlock])
      · intro u hu
        by_cases h : u = p
        · subst h; simp only [Function.update_same] at hu; simp at hu
        · simp only [Function.update_noteq h] at hu
          have h1 := hUP u hu
          rw [hpend] at h1
          exact absurd (Option.some.inj h1).symm h
      · intro u q hu
        exact absurd (hLO u (by rw [hu]; rfl)) (by simp [hlock])
      · intro u hu
        have hc := hCF u hu
        by_cases h : u = p
        · subst h
          rw [hc] at hfut
          simp at hfut
        · simp only [Function.update_noteq h]
          exact hc
      · intro u hu
        have h0 := hSF u hu
        by_cases h : u = p
        · subst h
          rw [h0] at hfut
          simp at hfut
        · simp only [Function.update_noteq h]
          exact h0
      · intro u hu
        have h0 := hTD u hu
        by_cases h : u = p
        · subst h
          rw [h0.1] at hfut
          simp at hfut
        · refine ⟨?_, by simp, h0.2.2⟩
          simp only [Function.update_noteq h]
          exact h0.1
      · intro q hq
        simp at hq

/-- Every reachable state satisfies the invariant. -/
theorem reach_inv {c : Bool → Nat} {s : RState} (h : Reach c s) : Inv c s := by
  induction h with
  | refl => exact inv_init c
  | tail h hs ih => exact inv_step ih hs

end ReaderSM

/-- C1: the Database Reader is single-flight.  In every reachable state of
two concurrent `send_command` callers (with `feed` and timeouts interleaving
arbitrarily), (a) at most one unresolved pending-request future exists, and
(b) whenever a caller is at the step that passes its command bytes to the
writer callback, the other caller's future — if it was ever created — is no
longer unresolved: it has been resolved by `feed`, rejected, or cancelled. -/
theorem sendCommand_single_flight (c : Bool → Nat) (s : ReaderSM.RState)
    (h : ReaderSM.Reach c s) :
    (∀ t u, s.fut t = some ReaderSM.FutStatus.unresolved →
      s.fut u = some ReaderSM.FutStatus.unresolved → t = u) ∧
    (∀ t u, s.pc t = ReaderSM.Pc.send → u ≠ t →
      s.fut u ≠ some ReaderSM.FutStatus.unresolved) := by
  have hinv := ReaderSM.reach_inv h
  constructor
  · intro t u ht hu
    have h1 := hinv.unresolvedPending t ht
    have h2 := hinv.unresolvedPending u hu
    rw [h1] at h2
    exact Option.some.inj h2
  · intro t u hpc hne hu
    have h1 := (hinv.sendOwner t (Or.inl hpc)).2
    have h2 := hinv.unresolvedPending u hu
    rw [h1] at h2
    exact hne (Option.some.inj h2).symm

/-- Witness for C1: a reachable state in which caller `true` holds the lock
with its command about to be written and its future unresolved. -/
theorem sendCommand_single_flight_witness :
    ∃ s : ReaderSM.RState, ReaderSM.Reach (fun _ => 1) s ∧
      s.pc true = ReaderSM.Pc.send ∧
      s.fut true = some ReaderSM.FutStatus.unresolved ∧
      (∀ t u, s.fut t = some ReaderSM.FutStatus.unresolved →
        s.fut u = some ReaderSM.FutStatus.unresolved → t = u) ∧
      (∀ t u, s.pc t = ReaderSM.Pc.send → u ≠ t →
        s.fut u ≠ some ReaderSM.FutStatus.unresolved) := by
  have hreach : ReaderSM.Reach (fun _ => 1)
      { lock := some true
        pending := some true
        fut := Function.update ReaderSM.init.fut true
          (some ReaderSM.FutStatus.unresolved)
        pc := Function.update
          (Function.update ReaderSM.init.pc true ReaderSM.Pc.check) true
          ReaderSM.Pc.send
        err := ReaderSM.init.err
        writes := [] } :=
    ReaderSM.Reach.tail
      (ReaderSM.Reach.tail ReaderSM.Reach.refl
        (ReaderSM.Step.acquire ReaderSM.init true rfl rfl))
      (ReaderSM.Step.checkFree _ true rfl (fun _ hp => Option.noConfusion hp))
  exact ⟨_, hreach, rfl, rfl, (sendCommand_single_flight _ _ hreach).1,
    (sendCommand_single_flight _ _ hreach).2⟩

/-- C7: `send_command`'s per-command timeout defaults to 5 seconds; in every
reachable state, a caller whose `wait_for` timed out has raised the
`TimeoutError` naming its command number and the stale `pending_request`
reference no longer points at its future; and a subsequent `send_command` by
the other caller is not blocked — from any such state (other caller not yet
started) there is a step sequence in which the other caller acquires the
lock, creates its future and passes its command bytes to the writer. -/
theorem sendCommand_timeout_clears (c : Bool → Nat) (s : ReaderSM.RState)
    (h : ReaderSM.Reach c s) :
    ReaderSM.sendCommandDefaultTimeout = 5 ∧
    (∀ t, s.pc t = ReaderSM.Pc.errTimeout →
      s.err t = some (ReaderSM.timeoutMessage (c t)) ∧ s.pending ≠ some t) ∧
    (∀ t, s.pc t = ReaderSM.Pc.errTimeout →
      s.pc (!t) = ReaderSM.Pc.start →
      ∃ s3, Relation.ReflTransGen (ReaderSM.Step c) s s3 ∧
        s3.pc (!t) = ReaderSM.Pc.release ∧
        s3.writes = s.writes ++ [!t]) := by
  have hinv := ReaderSM.reach_inv h
  refine ⟨rfl, ?_, ?_⟩
  · intro t ht
    exact ⟨(hinv.timeoutDone t ht).2.2, (hinv.timeoutDone t ht).2.1⟩
  · intro t ht hstart
    have hlock : s.lock = none := by
      cases hl : s.lock with
      | none => rfl
      | some x =>
          have hx := hinv.pcOfLock x hl
          have hcase : x = t ∨ x = !t := by cases x <;> cases t <;> simp
          rcases hcase with h1 | h1
          · rw [h1, ht] at hx
            simp [ReaderSM.lockHeldPc] at hx
          · rw [h1, hstart] at hx
            simp [ReaderSM.lockHeldPc] at hx
    have hfree : ∀ p, s.pending = some p →
        s.fut p ≠ some ReaderSM.FutStatus.unresolved := by
      intro p hp
      have hcase : p = t ∨ p = !t := by cases p <;> cases t <;> simp
      rcases hcase with h1 | h1
      · rw [h1, (hinv.timeoutDone t ht).1]
        simp
      · rw [h1, hinv.startFut (!t) hstart]
        simp
    have hs1 : ReaderSM.Step c s
        { s with
            lock := some (!t)
            pc := Function.update s.pc (!t) ReaderSM.Pc.check } :=
      ReaderSM.Step.acquire s (!t) hstart hlock
    have hs2 : ReaderSM.Step c
        { s with
            lock := some (!t)
            pc := Function.update s.pc (!t) ReaderSM.Pc.check }
        { s with
            lock := some (!t)
            pending := some (!t)
            fut := Function.update s.fut (!t)
              (some ReaderSM.FutStatus.unresolved)
            pc := Function.update
              (Function.update s.pc (!t) ReaderSM.Pc.check) (!t)
              ReaderSM.Pc.send } :=
      ReaderSM.Step.checkFree _ (!t) (by simp [Function.update_same]) hfree
    have hs3 : ReaderSM.Step c
        { s with
            lock := some (!t)
            pending := some (!t)
            fut := Function.update s.fut (!t)
              (some ReaderSM.FutStatus.unresolved)
            pc := Function.update
              (Function.update s.pc (!t) ReaderSM.Pc.check) (!t)
              ReaderSM.Pc.send }
        { s with
            lock := some (!t)
            pending := some (!t)
            fut := Function.update s.fut (!t)
              (some ReaderSM.FutStatus.unresolved)
            pc := Function.update (Function.update
              (Function.update s.pc (!t) ReaderSM.Pc.check) (!t)
              ReaderSM.Pc.send) (!t) ReaderSM.Pc.release
            writes := s.writes ++ [!t] } :=
      ReaderSM.Step.write _ (!t) (by simp [Function.update_same])
    refine ⟨_, Relation.ReflTransGen.tail (Relation.ReflTransGen.tail
      (Relation.ReflTransGen.single hs1) hs2) hs3, ?_, rfl⟩
    simp [Function.update_same]

/-- Witness for C7: a concrete execution in which caller `true` sends command
7, no response arrives, the timeout fires, and caller `false` subsequently
proceeds to transmit. -/
theorem sendCommand_timeout_clears_witness :
    ReaderSM.sendCommandDefaultTimeout = 5 ∧
    ∃ s : ReaderSM.RState, ReaderSM.Reach (fun _ => 7) s ∧
      s.pc true = ReaderSM.Pc.errTimeout ∧
      s.err true = some (ReaderSM.timeoutMessage 7) ∧
      s.pending ≠ some true ∧
      ∃ s3, Relation.ReflTransGen (ReaderSM.Step (fun _ => 7)) s s3 ∧
        s3.pc false = ReaderSM.Pc.release ∧
        s3.writes = s.writes ++ [false] := by
  have hreach : ReaderSM.Reach (fun _ => 7)
      { lock := none
        pending := none
        fut := Function.update
          (Function.update ReaderSM.init.fut true
            (some ReaderSM.FutStatus.unresolved)) true
          (some ReaderSM.FutStatus.cancelled)
        pc := Function.update (Function.update (Function.update
          (Function.update (Function.update (Function.update
            (Function.update ReaderSM.init.pc
              true ReaderSM.Pc.check)
              true ReaderSM.Pc.send)
              true ReaderSM.Pc.release)
              true ReaderSM.Pc.awaitRes)
              true ReaderSM.Pc.clearAcq)
              true ReaderSM.Pc.clearRun)
              true ReaderSM.Pc.errTimeout
        err := Function.update ReaderSM.init.err true
          (some (ReaderSM.timeoutMessage 7))
        writes := [true] } := by
    refine ReaderSM.Reach.tail (ReaderSM.Reach.tail (ReaderSM.Reach.tail
      (ReaderSM.Reach.tail (ReaderSM.Reach.tail (ReaderSM.Reach.tail
        (ReaderSM.Reach.tail ReaderSM.Reach.refl
          (ReaderSM.Step.acquire ReaderSM.init true rfl rfl))
        (ReaderSM.Step.checkFree _ true rfl
          (fun _ hp => Option.noConfusion hp)))
      (ReaderSM.Step.write _ true rfl))
      (ReaderSM.Step.release _ true rfl))
      (ReaderSM.Step.timeoutFire _ true rfl rfl))
      (ReaderSM.Step.clearAcquire _ true rfl rfl))
      (ReaderSM.Step.clearRun _ true rfl)
  have h := sendCommand_timeout_clears (fun _ => 7) _ hreach
  refine ⟨h.1, _, hreach, rfl, (h.2.1 true rfl).1, (h.2.1 true rfl).2, ?_⟩
  exact h.2.2 true rfl rfl

/-- Witness for C2 at the concrete `GetFloorNumbers` frame and floor 5. -/
theorem checksum_roundtrip_witness :
    GetFloorNumbers.serialize = some [86, 84, 72, 62, 1, 0, 1, 50] ∧
    ([86, 84, 72, 62, 1, 0, 1, 50] : List Nat).dropLast.sum % 256 =
      ([86, 84, 72, 62, 1, 0, 1, 50] : List Nat).getLastD 0 ∧
    (∀ b ∈ ([86, 84, 72, 62, 1, 0, 1, 50] : List Nat), b < 256) ∧
    BaseParameterResponseParser.validate_checksum
      [86, 84, 72, 62, 1, 0, 1, 50] = some true :=
  ⟨by decide, (checksum_roundtrip 5 1 []).1 [86, 84, 72, 62, 1, 0, 1, 50] (by decide)⟩

end Vitrea
